import Mathlib

/-!
Verification of the UnderFlaw chess engine core against its natural-language
specification.

This file shallowly embeds the C sources (`src/position.c`, `src/movegen.c`,
`src/see.c`, `src/movepicker.c`, `src/tt.c`, `src/search.c`, `src/threads.c`,
`src/uci.c`) into Lean and settles the frozen claims C1-C10 about them.

Embedding conventions:
* `uint64_t` bitboards are `Nat` kept below `2 ^ 64`; `~x` is `UMASK ^^^ x`.
* C `int` values that can go negative are `Int`; every C division that we
  embed with `/` on `Int` only ever divides non-negative quantities, where
  C truncation and Lean's Euclidean division agree.
* `BB_FOREACH` (pop-lsb iteration) enumerates set bits in ascending order,
  embedded as filtering `List.range 64` by `Nat.testBit`.
* The NNUE accumulator is omitted: we model runs with `nnue_available = 0`,
  under which `position_make_move` / `position_unmake_move` never touch it
  (and `position_unmake_move` restores it from the undo record verbatim
  anyway), so it cannot affect any claim.
* Statistics counters (`search_stats`, `state->futility_prunes`, ...) and
  prefetches are omitted; they do not feed back into any computation.
-/

namespace Engine

/-- All 64 bits set; `~x` on a `uint64_t` is `UMASK ^^^ x`. -/
def UMASK : Nat := 2 ^ 64 - 1

/-- `1ULL << sq`. -/
def bitAt (sq : Nat) : Nat := 1 <<< sq

/-- `SQ(file, rank)` from `bitboard.h`. -/
def SQ (file rank : Nat) : Nat := rank * 8 + file

/-- `SQ_FILE(sq)`. -/
def SQ_FILE (sq : Nat) : Nat := sq &&& 7

/-- `SQ_RANK(sq)`. -/
def SQ_RANK (sq : Nat) : Nat := sq >>> 3

/-- `LSB(bb)` (`__builtin_ctzll`); only called on nonzero 64-bit values,
on which it returns the least set bit index. -/
def LSB (bb : Nat) : Nat := List.findIdx (fun i => bb.testBit i) (List.range 64)

/-- The ascending list of set-bit indices of a 64-bit word: the order in
which `BB_FOREACH` (repeated pop-lsb) visits them. -/
def bbList (bb : Nat) : List Nat := (List.range 64).filter (fun i => bb.testBit i)

/-- `POPCOUNT(bb)` on a 64-bit word. -/
def POPCOUNT (bb : Nat) : Nat := (bbList bb).length

-- Move encoding (`types.h`): {from:6, to:6, promo:4, flag:2}, `MOVE_NONE = 0`.

/-- `MOVE_NONE`. -/
def MOVE_NONE : Nat := 0

/-- `MOVE_FROM(m)`. -/
def MOVE_FROM (m : Nat) : Nat := m &&& 0x3F

/-- `MOVE_TO(m)`. -/
def MOVE_TO (m : Nat) : Nat := (m >>> 6) &&& 0x3F

/-- `MOVE_PROMO(m)`. -/
def MOVE_PROMO (m : Nat) : Nat := (m >>> 12) &&& 0xF

/-- `MOVE_FLAG(m)`. -/
def MOVE_FLAG (m : Nat) : Nat := (m >>> 16) &&& 0x3

/-- `FLAG_QUIET`. -/
def FLAG_QUIET : Nat := 0

/-- `FLAG_CAPTURE`. -/
def FLAG_CAPTURE : Nat := 1

/-- `FLAG_SPECIAL`. -/
def FLAG_SPECIAL : Nat := 2

/-- `MAKE_MOVE(from, to, promo, flag)` (`from`/`to` spelt `fr`/`tsq`:
Lean keywords). -/
def MAKE_MOVE (fr tsq promo flag : Nat) : Nat :=
  fr ||| (tsq <<< 6) ||| (promo <<< 12) ||| (flag <<< 16)

/-- `MOVE_IS_CAPTURE(m)`. -/
def MOVE_IS_CAPTURE (m : Nat) : Bool := MOVE_FLAG m = FLAG_CAPTURE

/-- `MOVE_IS_SPECIAL(m)`. -/
def MOVE_IS_SPECIAL (m : Nat) : Bool := MOVE_FLAG m = FLAG_SPECIAL

-- Piece and colour constants (`types.h`).

/-- `PAWN`. -/
def PAWN : Nat := 0
/-- `KNIGHT`. -/
def KNIGHT : Nat := 1
/-- `BISHOP`. -/
def BISHOP : Nat := 2
/-- `ROOK`. -/
def ROOK : Nat := 3
/-- `QUEEN`. -/
def QUEEN : Nat := 4
/-- `KING`. -/
def KING : Nat := 5
/-- `WHITE`. -/
def WHITE : Nat := 0
/-- `BLACK`. -/
def BLACK : Nat := 1

-- Rank/file masks (`bitboard.h`).

/-- `RANK_3`. -/
def RANK_3 : Nat := 0x0000000000FF0000
/-- `RANK_6`. -/
def RANK_6 : Nat := 0x0000FF0000000000
/-- `FILE_A`. -/
def FILE_A : Nat := 0x0101010101010101
/-- `FILE_H`. -/
def FILE_H : Nat := 0x8080808080808080

-- Attack tables (`magic.c` `init_basic_attacks` and the direct-ray
-- `get_rook_attacks` / `get_bishop_attacks` from `magic.h`).

/-- Knight attack table entry, computed exactly as `init_basic_attacks`:
fixed deltas filtered by a rank/file distance test. -/
def knight_attacks (sq : Nat) : Nat :=
  let rank : Int := (SQ_RANK sq : Int)
  let file : Int := (SQ_FILE sq : Int)
  let deltas : List Int := [-17, -15, -10, -6, 6, 10, 15, 17]
  deltas.foldl
    (fun acc d =>
      let t : Int := (sq : Int) + d
      if 0 ≤ t ∧ t < 64 ∧ |((t.toNat : Nat) >>> 3 : Nat) - rank| ≤ 2 ∧
          |(((t.toNat : Nat) &&& 7 : Nat) : Int) - file| ≤ 2 then
        acc ||| bitAt t.toNat
      else acc)
    0

/-- King attack table entry, computed exactly as `init_basic_attacks`. -/
def king_attacks (sq : Nat) : Nat :=
  let rank : Int := (SQ_RANK sq : Int)
  let file : Int := (SQ_FILE sq : Int)
  let deltas : List Int := [-9, -8, -7, -1, 1, 7, 8, 9]
  deltas.foldl
    (fun acc d =>
      let t : Int := (sq : Int) + d
      if 0 ≤ t ∧ t < 64 ∧ |((t.toNat : Nat) >>> 3 : Nat) - rank| ≤ 1 ∧
          |(((t.toNat : Nat) &&& 7 : Nat) : Int) - file| ≤ 1 then
        acc ||| bitAt t.toNat
      else acc)
    0

/-- One rook/bishop ray walk: from `(rank, file)` step by `(dr, df)` up to 7
times, adding each square and stopping after the first occupied one.
This is the loop body pattern of `get_rook_attacks` / `get_bishop_attacks`
in `magic.h`. -/
def rayWalk (occupied : Nat) (rank file : Int) (dr df : Int) : Nat :=
  let rec go : Nat → Int → Int → Nat
    | 0, _, _ => 0
    | fuel + 1, r, f =>
      if 0 ≤ r ∧ r < 8 ∧ 0 ≤ f ∧ f < 8 then
        let s := (r * 8 + f).toNat
        if occupied.testBit s then bitAt s
        else bitAt s ||| go fuel (r + dr) (f + df)
      else 0
  go 8 (rank + dr) (file + df)

/-- `get_rook_attacks(sq, occupied)` (direct ray version from `magic.h`). -/
def get_rook_attacks (sq : Nat) (occupied : Nat) : Nat :=
  let rank : Int := (sq >>> 3 : Nat)
  let file : Int := (sq &&& 7 : Nat)
  rayWalk occupied rank file 0 1 ||| rayWalk occupied rank file 0 (-1) |||
    rayWalk occupied rank file 1 0 ||| rayWalk occupied rank file (-1) 0

/-- `get_bishop_attacks(sq, occupied)` (direct ray version from `magic.h`). -/
def get_bishop_attacks (sq : Nat) (occupied : Nat) : Nat :=
  let rank : Int := (sq >>> 3 : Nat)
  let file : Int := (sq &&& 7 : Nat)
  rayWalk occupied rank file 1 1 ||| rayWalk occupied rank file 1 (-1) |||
    rayWalk occupied rank file (-1) 1 ||| rayWalk occupied rank file (-1) (-1)

/-- `get_queen_attacks(sq, occupied)`. -/
def get_queen_attacks (sq : Nat) (occupied : Nat) : Nat :=
  get_rook_attacks sq occupied ||| get_bishop_attacks sq occupied

-- Zobrist keys (`position.c` `zobrist_init`, seeded xorshift64).

/-- `xorshift64` from `position.c`, on 64-bit words. -/
def xorshift64 (x : Nat) : Nat :=
  let x1 := (x ^^^ (x <<< 13)) &&& UMASK
  let x2 := x1 ^^^ (x1 >>> 7)
  (x2 ^^^ (x2 <<< 17)) &&& UMASK

/-- State of the zobrist generator after `n` draws from the fixed seed. -/
def zobristState (n : Nat) : Nat := xorshift64^[n] 0x0123456789ABCDEF

/-- `zobrist_piece[color][piece][sq]`: the `(color*384 + piece*64 + sq + 1)`-th
draw of the generator, exactly the fill order of `zobrist_init`. -/
def zobrist_piece (color piece sq : Nat) : Nat :=
  zobristState (color * 384 + piece * 64 + sq + 1)

/-- `zobrist_castle[i]` (filled after the 768 piece keys). -/
def zobrist_castle (i : Nat) : Nat := zobristState (768 + i + 1)

/-- `zobrist_enpassant[i]` (filled after the castle keys). -/
def zobrist_enpassant (i : Nat) : Nat := zobristState (784 + i + 1)

/-- `zobrist_to_move` (the final draw). -/
def zobrist_to_move : Nat := zobristState 793

-- Position and moves (`position.h` / `position.c`).

/-- The C `Position` struct (`position.h`), minus the NNUE accumulator
(modelled out, see the header comment). `pieces` and `occupied` are the
C arrays `pieces[2][6]` and `occupied[2]` as functions; only arguments
below 2 resp. 6 are ever used. -/
structure Position where
  pieces : Nat → Nat → Nat
  occupied : Nat → Nat
  all : Nat
  to_move : Nat
  castling : Nat
  castling_rooks : Nat → Nat
  enpassant : Int
  halfmove : Int
  fullmove : Int
  zobrist : Nat
  pawn_hash : Nat

/-- The C `UndoInfo` record filled by `position_make_move`.
`moving_piece = -1` marks the early-return path on which the C code leaves
the field uninitialised. -/
structure UndoInfo where
  move : Nat
  captured : Int
  castling : Nat
  enpassant : Int
  halfmove : Int
  zobrist : Nat
  pawn_hash : Nat
  moving_piece : Int

/-- `position_piece_at`: the first piece type whose board holds `sq`,
white as `0..5`, black as `piece + 6`, `-1` when empty. -/
def position_piece_at (pos : Position) (sq : Nat) : Int :=
  match (List.range 6).find? (fun p =>
      (pos.pieces WHITE p).testBit sq || (pos.pieces BLACK p).testBit sq) with
  | some p => if (pos.pieces WHITE p).testBit sq then (p : Int) else (p : Int) + 6
  | none => -1

/-- `position_set_piece`. -/
def position_set_piece (pos : Position) (piece color sq : Nat) : Position :=
  { pos with
    pieces := fun c p =>
      if c = color ∧ p = piece then pos.pieces c p ||| bitAt sq else pos.pieces c p
    occupied := fun c =>
      if c = color then pos.occupied c ||| bitAt sq else pos.occupied c
    all := pos.all ||| bitAt sq }

/-- `position_remove_piece`. -/
def position_remove_piece (pos : Position) (piece color sq : Nat) : Position :=
  { pos with
    pieces := fun c p =>
      if c = color ∧ p = piece then pos.pieces c p &&& (UMASK ^^^ bitAt sq)
      else pos.pieces c p
    occupied := fun c =>
      if c = color then pos.occupied c &&& (UMASK ^^^ bitAt sq) else pos.occupied c
    all := pos.all &&& (UMASK ^^^ bitAt sq) }

/-- `position_move_piece` (xor of the from/to pair). -/
def position_move_piece (pos : Position) (piece color fr tsq : Nat) : Position :=
  let ft := bitAt fr ||| bitAt tsq
  { pos with
    pieces := fun c p =>
      if c = color ∧ p = piece then pos.pieces c p ^^^ ft else pos.pieces c p
    occupied := fun c =>
      if c = color then pos.occupied c ^^^ ft else pos.occupied c
    all := pos.all ^^^ ft }

/-- `position_in_check`: is the side to move's king attacked? Mirrors the
pawn / knight / slider / king probes of `position.c`. -/
def position_in_check (pos : Position) : Bool :=
  let color := pos.to_move
  let king := pos.pieces color KING
  if king = 0 then false
  else
    let king_sq := LSB king
    let enemy := color ^^^ 1
    let enemy_pawns := pos.pieces enemy PAWN
    let pawnHit : Bool :=
      if color = WHITE then
        SQ_RANK king_sq < 7 ∧
          ((SQ_FILE king_sq > 0 ∧ enemy_pawns.testBit (king_sq + 7)) ∨
            (SQ_FILE king_sq < 7 ∧ enemy_pawns.testBit (king_sq + 9)))
      else
        SQ_RANK king_sq > 0 ∧
          ((SQ_FILE king_sq > 0 ∧ king_sq ≥ 9 ∧ enemy_pawns.testBit (king_sq - 9)) ∨
            (SQ_FILE king_sq < 7 ∧ king_sq ≥ 7 ∧ enemy_pawns.testBit (king_sq - 7)))
    pawnHit ||
      (knight_attacks king_sq &&& pos.pieces enemy KNIGHT ≠ 0) ||
      (get_rook_attacks king_sq pos.all &&&
        (pos.pieces enemy ROOK ||| pos.pieces enemy QUEEN) ≠ 0) ||
      (get_bishop_attacks king_sq pos.all &&&
        (pos.pieces enemy BISHOP ||| pos.pieces enemy QUEEN) ≠ 0) ||
      (king_attacks king_sq &&& pos.pieces enemy KING ≠ 0)

/-- `position_make_move` (`position.c:467`), as a pure function returning the
new position and the undo record. The statement-by-statement correspondence
with the C is kept; the NNUE block is the `nnue_available = 0` no-op. -/
def position_make_move (pos : Position) (move : Nat) : Position × UndoInfo :=
  let undo0 : UndoInfo :=
    { move := move, captured := -1, castling := pos.castling,
      enpassant := pos.enpassant, halfmove := pos.halfmove,
      zobrist := pos.zobrist, pawn_hash := pos.pawn_hash, moving_piece := -1 }
  let fr := MOVE_FROM move
  let tsq := MOVE_TO move
  let promo := MOVE_PROMO move
  let color := pos.to_move
  let enemy := color ^^^ 1
  -- Find moving piece
  match (List.range 6).find? (fun p => (pos.pieces color p).testBit fr) with
  | none => (pos, undo0)
  | some moving_piece =>
    let undo1 := { undo0 with moving_piece := (moving_piece : Int) }
    -- Handle captures
    let capStep : Position × UndoInfo :=
      match (List.range 6).find? (fun p => (pos.pieces enemy p).testBit tsq) with
      | some piece =>
        let pos1 := position_remove_piece pos piece enemy tsq
        let pos2 := { pos1 with
          zobrist := pos1.zobrist ^^^ zobrist_piece enemy piece tsq
          pawn_hash := if piece = PAWN then
              pos1.pawn_hash ^^^ zobrist_piece enemy piece tsq
            else pos1.pawn_hash }
        let pos3 := { pos2 with
          castling :=
            if tsq = pos.castling_rooks 0 then pos2.castling &&& (15 ^^^ 1)
            else if tsq = pos.castling_rooks 1 then pos2.castling &&& (15 ^^^ 2)
            else if tsq = pos.castling_rooks 2 then pos2.castling &&& (15 ^^^ 4)
            else if tsq = pos.castling_rooks 3 then pos2.castling &&& (15 ^^^ 8)
            else pos2.castling }
        (pos3, { undo1 with captured := (piece : Int) })
      | none => (pos, undo1)
    let pos4 := capStep.1
    let undo2 := capStep.2
    -- Handle en passant capture
    let epStep : Position × UndoInfo :=
      if moving_piece = PAWN ∧ (tsq : Int) = pos.enpassant then
        let captured_sq := SQ (SQ_FILE tsq) (SQ_RANK fr)
        let p1 := position_remove_piece pos4 PAWN enemy captured_sq
        let p2 := { p1 with
          zobrist := p1.zobrist ^^^ zobrist_piece enemy PAWN captured_sq
          pawn_hash := p1.pawn_hash ^^^ zobrist_piece enemy PAWN captured_sq }
        (p2, { undo2 with captured := (PAWN : Int) })
      else (pos4, undo2)
    let pos5 := epStep.1
    let undo := epStep.2
    -- Update castling rights for King or Rook move
    let pos6 := { pos5 with
      castling :=
        if moving_piece = KING then
          if color = WHITE then pos5.castling &&& (15 ^^^ 3)
          else pos5.castling &&& (15 ^^^ 12)
        else if moving_piece = ROOK then
          if color = WHITE then
            if fr = pos5.castling_rooks 0 then pos5.castling &&& (15 ^^^ 1)
            else if fr = pos5.castling_rooks 1 then pos5.castling &&& (15 ^^^ 2)
            else pos5.castling
          else
            if fr = pos5.castling_rooks 2 then pos5.castling &&& (15 ^^^ 4)
            else if fr = pos5.castling_rooks 3 then pos5.castling &&& (15 ^^^ 8)
            else pos5.castling
        else pos5.castling }
    -- Actually move the king/piece
    let pos7 :=
      if moving_piece = KING ∧ MOVE_IS_SPECIAL move then
        let is_kingside := tsq = pos6.castling_rooks (if color = WHITE then 0 else 2)
        let king_to :=
          if color = WHITE then (if is_kingside then 6 else 2)
          else (if is_kingside then 62 else 58)
        let rook_to :=
          if color = WHITE then (if is_kingside then 5 else 3)
          else (if is_kingside then 61 else 59)
        let rook_sq := tsq
        let a := position_move_piece pos6 KING color fr king_to
        let b := { a with
          zobrist := a.zobrist ^^^ zobrist_piece color KING fr ^^^
            zobrist_piece color KING king_to }
        let c := position_move_piece b ROOK color rook_sq rook_to
        { c with
          zobrist := c.zobrist ^^^ zobrist_piece color ROOK rook_sq ^^^
            zobrist_piece color ROOK rook_to }
      else
        let a := position_move_piece pos6 moving_piece color fr tsq
        { a with
          zobrist := a.zobrist ^^^ zobrist_piece color moving_piece fr ^^^
            zobrist_piece color moving_piece tsq
          pawn_hash :=
            if moving_piece = PAWN then
              a.pawn_hash ^^^ zobrist_piece color PAWN fr ^^^
                zobrist_piece color PAWN tsq
            else a.pawn_hash }
    -- Promotions
    let pos8 :=
      if promo > 0 then
        let a := position_remove_piece pos7 PAWN color tsq
        let b := position_set_piece a promo color tsq
        { b with
          zobrist := b.zobrist ^^^ zobrist_piece color PAWN tsq ^^^
            zobrist_piece color promo tsq
          pawn_hash := b.pawn_hash ^^^ zobrist_piece color PAWN tsq }
      else pos7
    -- Update en passant state
    let pos9 := { pos8 with
      zobrist :=
        if pos.enpassant ≥ 0 then
          pos8.zobrist ^^^ zobrist_enpassant (SQ_FILE pos.enpassant.toNat)
        else pos8.zobrist
      enpassant := -1 }
    let pos10 :=
      if moving_piece = PAWN ∧ ((tsq : Int) - (fr : Int)).natAbs = 16 then
        let ep := (fr + tsq) / 2
        { pos9 with
          enpassant := (ep : Int)
          zobrist := pos9.zobrist ^^^ zobrist_enpassant (SQ_FILE ep) }
      else pos9
    -- Counters
    let pos11 := { pos10 with
      halfmove :=
        if moving_piece = PAWN ∨ undo.captured ≥ 0 then 0 else pos10.halfmove + 1
      fullmove := if color = BLACK then pos10.fullmove + 1 else pos10.fullmove }
    -- Final zobrist updates, side to move flip
    let pos12 := { pos11 with
      zobrist := pos11.zobrist ^^^ zobrist_castle undo.castling ^^^
        zobrist_castle pos11.castling
      to_move := enemy }
    ({ pos12 with zobrist := pos12.zobrist ^^^ zobrist_to_move }, undo)

/-- `position_unmake_move` (`position.c:631`). -/
def position_unmake_move (pos : Position) (move : Nat) (undo : UndoInfo) :
    Position :=
  let color := pos.to_move ^^^ 1
  let fr := MOVE_FROM move
  let tsq := MOVE_TO move
  let promo := MOVE_PROMO move
  let moving_piece := undo.moving_piece
  let pos1 :=
    if moving_piece = (KING : Int) ∧ MOVE_IS_SPECIAL move then
      let is_kingside := tsq = pos.castling_rooks (if color = WHITE then 0 else 2)
      let king_to :=
        if color = WHITE then (if is_kingside then 6 else 2)
        else (if is_kingside then 62 else 58)
      let rook_to :=
        if color = WHITE then (if is_kingside then 5 else 3)
        else (if is_kingside then 61 else 59)
      let rook_sq := tsq
      let a := position_move_piece pos ROOK color rook_to rook_sq
      position_move_piece a KING color king_to fr
    else
      if promo > 0 then
        let a := position_remove_piece pos promo color tsq
        position_set_piece a PAWN color fr
      else
        position_move_piece pos moving_piece.toNat color tsq fr
  let pos2 :=
    if undo.captured ≥ 0 then
      if moving_piece = (PAWN : Int) ∧ (tsq : Int) = undo.enpassant then
        let captured_sq := SQ (SQ_FILE tsq) (SQ_RANK fr)
        position_set_piece pos1 PAWN (color ^^^ 1) captured_sq
      else
        position_set_piece pos1 undo.captured.toNat (color ^^^ 1) tsq
    else pos1
  let pos3 := { pos2 with
    to_move := color
    castling := undo.castling
    enpassant := undo.enpassant
    halfmove := undo.halfmove
    zobrist := undo.zobrist
    pawn_hash := undo.pawn_hash }
  -- Sync occupied bitboards (recomputed from the piece maps, as in the C)
  let occW := (List.range 6).foldl (fun acc p => acc ||| pos3.pieces WHITE p) 0
  let occB := (List.range 6).foldl (fun acc p => acc ||| pos3.pieces BLACK p) 0
  { pos3 with
    occupied := fun c => if c = WHITE then occW else if c = BLACK then occB
      else pos3.occupied c
    all := occW ||| occB }

-- Move generation (`movegen.c`).

/-- `add_pawn_moves`: promotion expansion (one move per piece knight..queen,
promo field `promo - KNIGHT + 1`) or a single move. -/
def add_pawn_moves (to_move fr tsq flag : Nat) : List Nat :=
  let rank := SQ_RANK tsq
  if (to_move = WHITE ∧ rank = 7) ∨ (to_move = BLACK ∧ rank = 0) then
    (List.range 4).map (fun i => MAKE_MOVE fr tsq (KNIGHT + i - KNIGHT + 1) flag)
  else [MAKE_MOVE fr tsq 0 flag]

/-- The inclusive walk `start, start ± 1, ..., target` used by the castling
path loops of `movegen_all` (`for (s = start;; s += step)`); empty when the
direction of `step` never reaches `target` (that C loop would run out of
the board, which never happens for the squares the generator feeds it). -/
def walkTo (start target : Nat) (step : Int) : List Nat :=
  if step = 1 then
    if start ≤ target then (List.range (target + 1 - start)).map (start + ·) else []
  else
    if target ≤ start then (List.range (start + 1 - target)).map (start - ·) else []

/-- The inline "is square `s` attacked by `enemy`" test of the castling
generator (`movegen.c:247-283`), including its shifted pawn mask. -/
def castlePathAttacked (pos : Position) (enemy s : Nat) : Bool :=
  (knight_attacks s &&& pos.pieces enemy KNIGHT ≠ 0) ||
  (king_attacks s &&& pos.pieces enemy KING ≠ 0) ||
  (get_bishop_attacks s pos.all &&&
    (pos.pieces enemy BISHOP ||| pos.pieces enemy QUEEN) ≠ 0) ||
  (get_rook_attacks s pos.all &&&
    (pos.pieces enemy ROOK ||| pos.pieces enemy QUEEN) ≠ 0) ||
  (let pawns := pos.pieces enemy PAWN
   let p_mask :=
     if enemy = WHITE then
       ((bitAt s >>> 7) &&& (UMASK ^^^ FILE_A)) |||
         ((bitAt s >>> 9) &&& (UMASK ^^^ FILE_H))
     else
       ((bitAt s <<< 7) &&& (UMASK ^^^ FILE_H) &&& UMASK) |||
         ((bitAt s <<< 9) &&& (UMASK ^^^ FILE_A) &&& UMASK)
   p_mask &&& pawns ≠ 0)

/-- The castling moves produced at the end of `movegen_all`
(`movegen.c:175-291`), in loop order `i = 0` (king side), `i = 1`
(queen side). -/
def movegen_castles (pos : Position) : List Nat :=
  let color := pos.to_move
  let kings := pos.pieces color KING
  if kings = 0 then []
  else
    let king_sq := LSB kings
    ([0, 1] : List Nat).filterMap (fun i =>
      let castling_bit := if color = WHITE then 1 <<< i else 4 <<< i
      if pos.castling &&& castling_bit = 0 then none
      else
        let rook_sq := pos.castling_rooks (if color = WHITE then i else 2 + i)
        if ¬(pos.pieces color ROOK).testBit rook_sq then none
        else
          let target_k : Nat :=
            if color = WHITE then (if i = 0 then 6 else 2)
            else (if i = 0 then 62 else 58)
          let target_r : Nat :=
            if color = WHITE then (if i = 0 then 5 else 3)
            else (if i = 0 then 61 else 59)
          let k_step : Int := if target_k > king_sq then 1 else -1
          let kstart : Nat := if target_k > king_sq then king_sq + 1 else king_sq - 1
          let kpath := walkTo kstart target_k k_step
          if kpath.any (fun s => s ≠ king_sq ∧ s ≠ rook_sq ∧ pos.all.testBit s) then
            none
          else
            let r_step : Int := if target_r > rook_sq then 1 else -1
            let rstart : Nat := if target_r > rook_sq then rook_sq + 1 else rook_sq - 1
            let rpath := walkTo rstart target_r r_step
            if rpath.any (fun s => s ≠ king_sq ∧ s ≠ rook_sq ∧ pos.all.testBit s) then
              none
            else if position_in_check pos then none
            else
              let enemy := color ^^^ 1
              let checkedPath := walkTo king_sq target_k k_step
              if checkedPath.any (fun s => castlePathAttacked pos enemy s) then none
              else some (MAKE_MOVE king_sq rook_sq 0 FLAG_SPECIAL))

/-- Moves of one non-pawn piece type from its attack set (`movegen_all`'s
`BB_FOREACH` double loop, capture flag from enemy occupancy). -/
def pieceMoves (pos : Position) (board : Nat) (att : Nat → Nat) : List Nat :=
  let color := pos.to_move
  let enemies := pos.occupied (color ^^^ 1)
  (bbList board).flatMap (fun sq =>
    (bbList (att sq &&& (UMASK ^^^ pos.occupied color))).map (fun tsq =>
      MAKE_MOVE sq tsq 0 (if enemies.testBit tsq then FLAG_CAPTURE else FLAG_QUIET)))

/-- The en-passant adds of `movegen_all` / `movegen_captures`. -/
def movegen_ep (pos : Position) : List Nat :=
  let color := pos.to_move
  let pawns := pos.pieces color PAWN
  if pos.enpassant ≥ 0 then
    let ep := pos.enpassant.toNat
    let ep_file := SQ_FILE ep
    let capRank := if color = WHITE then 4 else 3
    (if ep_file > 0 ∧ pawns.testBit (SQ (ep_file - 1) capRank) then
      [MAKE_MOVE (SQ (ep_file - 1) capRank) ep 0 FLAG_CAPTURE] else []) ++
    (if ep_file < 7 ∧ pawns.testBit (SQ (ep_file + 1) capRank) then
      [MAKE_MOVE (SQ (ep_file + 1) capRank) ep 0 FLAG_CAPTURE] else [])
  else []

/-- Pawn capture adds (shift direction `dir`, file mask `fmask`, white
offset `woff` subtracted resp. black offset added to recover `from`). -/
def pawnCaptureMoves (pos : Position) : List Nat :=
  let color := pos.to_move
  let pawns := pos.pieces color PAWN
  let enemies := pos.occupied (color ^^^ 1)
  if color = WHITE then
    (bbList ((pawns <<< 7) &&& UMASK &&& (UMASK ^^^ FILE_H) &&& enemies)).flatMap
      (fun sq => add_pawn_moves color (sq - 7) sq FLAG_CAPTURE) ++
    (bbList ((pawns <<< 9) &&& UMASK &&& (UMASK ^^^ FILE_A) &&& enemies)).flatMap
      (fun sq => add_pawn_moves color (sq - 9) sq FLAG_CAPTURE)
  else
    (bbList ((pawns >>> 7) &&& (UMASK ^^^ FILE_A) &&& enemies)).flatMap
      (fun sq => add_pawn_moves color (sq + 7) sq FLAG_CAPTURE) ++
    (bbList ((pawns >>> 9) &&& (UMASK ^^^ FILE_H) &&& enemies)).flatMap
      (fun sq => add_pawn_moves color (sq + 9) sq FLAG_CAPTURE)

/-- `movegen_all` (`movegen.c:36`): the full pseudo-legal move list, in the
C emission order (pawn pushes, pawn captures, en passant, knights, bishops,
rooks, queens, king, castling), capped at 256 entries like `add_move`. -/
def movegen_all (pos : Position) : List Nat :=
  let color := pos.to_move
  let empty := UMASK ^^^ pos.all
  let pawns := pos.pieces color PAWN
  let pawnPart :=
    if color = WHITE then
      let push_1 := (pawns <<< 8) &&& UMASK &&& empty
      (bbList push_1).flatMap (fun sq => add_pawn_moves color (sq - 8) sq FLAG_QUIET) ++
      (bbList (((push_1 &&& RANK_3) <<< 8) &&& UMASK &&& empty)).map
        (fun sq => MAKE_MOVE (sq - 16) sq 0 FLAG_QUIET) ++
      pawnCaptureMoves pos ++ movegen_ep pos
    else
      let push_1 := (pawns >>> 8) &&& empty
      (bbList push_1).flatMap (fun sq => add_pawn_moves color (sq + 8) sq FLAG_QUIET) ++
      (bbList (((push_1 &&& RANK_6) >>> 8) &&& empty)).map
        (fun sq => MAKE_MOVE (sq + 16) sq 0 FLAG_QUIET) ++
      pawnCaptureMoves pos ++ movegen_ep pos
  let kings := pos.pieces color KING
  let kingPart :=
    if kings = 0 then []
    else
      pieceMoves pos (bitAt (LSB kings)) king_attacks ++ movegen_castles pos
  (pawnPart ++
    pieceMoves pos (pos.pieces color KNIGHT) knight_attacks ++
    pieceMoves pos (pos.pieces color BISHOP) (fun s => get_bishop_attacks s pos.all) ++
    pieceMoves pos (pos.pieces color ROOK) (fun s => get_rook_attacks s pos.all) ++
    pieceMoves pos (pos.pieces color QUEEN) (fun s => get_queen_attacks s pos.all) ++
    kingPart).take 256

/-- Capture moves of one non-pawn piece type (`movegen_captures` loops). -/
def pieceCaptureMoves (pos : Position) (board : Nat) (att : Nat → Nat) : List Nat :=
  let enemies := pos.occupied (pos.to_move ^^^ 1)
  (bbList board).flatMap (fun sq =>
    (bbList (att sq &&& enemies)).map (fun tsq => MAKE_MOVE sq tsq 0 FLAG_CAPTURE))

/-- `movegen_captures` (`movegen.c:295`). -/
def movegen_captures (pos : Position) : List Nat :=
  let color := pos.to_move
  let kings := pos.pieces color KING
  ((pawnCaptureMoves pos ++ movegen_ep pos) ++
    pieceCaptureMoves pos (pos.pieces color KNIGHT) knight_attacks ++
    pieceCaptureMoves pos (pos.pieces color BISHOP) (fun s => get_bishop_attacks s pos.all) ++
    pieceCaptureMoves pos (pos.pieces color ROOK) (fun s => get_rook_attacks s pos.all) ++
    pieceCaptureMoves pos (pos.pieces color QUEEN) (fun s => get_queen_attacks s pos.all) ++
    (if kings = 0 then []
     else pieceCaptureMoves pos (bitAt (LSB kings)) king_attacks)).take 256

/-- `movegen_is_pseudo_legal` (`movegen.c:401`). -/
def movegen_is_pseudo_legal (pos : Position) (move : Nat) : Bool :=
  let fr := MOVE_FROM move
  let tsq := MOVE_TO move
  let color := pos.to_move
  match (List.range 6).find? (fun p => (pos.pieces color p).testBit fr) with
  | none => false
  | some piece =>
    if (pos.occupied color).testBit tsq then false
    else if piece = PAWN then
      let pawn_bb := bitAt fr
      let empty := UMASK ^^^ pos.all
      let enemies := pos.occupied (color ^^^ 1)
      if color = WHITE then
        ((pawn_bb <<< 8) &&& UMASK &&& empty &&& bitAt tsq ≠ 0) ||
        (SQ_RANK fr = 1 ∧
          (pawn_bb <<< 16) &&& UMASK &&& empty &&& (((empty &&& RANK_3) <<< 8) &&& UMASK) &&&
            bitAt tsq ≠ 0) ||
        ((pawn_bb <<< 7) &&& UMASK &&& (UMASK ^^^ FILE_H) &&& enemies &&& bitAt tsq ≠ 0) ||
        ((pawn_bb <<< 9) &&& UMASK &&& (UMASK ^^^ FILE_A) &&& enemies &&& bitAt tsq ≠ 0) ||
        (pos.enpassant = (tsq : Int) ∧ pos.enpassant ≠ -1 ∧
          (((pawn_bb <<< 7) &&& UMASK &&& (UMASK ^^^ FILE_H) &&& bitAt tsq ≠ 0) ∨
            ((pawn_bb <<< 9) &&& UMASK &&& (UMASK ^^^ FILE_A) &&& bitAt tsq ≠ 0)))
      else
        ((pawn_bb >>> 8) &&& empty &&& bitAt tsq ≠ 0) ||
        (SQ_RANK fr = 6 ∧
          (pawn_bb >>> 16) &&& empty &&& ((empty &&& RANK_6) >>> 8) &&& bitAt tsq ≠ 0) ||
        ((pawn_bb >>> 7) &&& (UMASK ^^^ FILE_A) &&& enemies &&& bitAt tsq ≠ 0) ||
        ((pawn_bb >>> 9) &&& (UMASK ^^^ FILE_H) &&& enemies &&& bitAt tsq ≠ 0) ||
        (pos.enpassant = (tsq : Int) ∧ pos.enpassant ≠ -1 ∧
          (((pawn_bb >>> 7) &&& (UMASK ^^^ FILE_A) &&& bitAt tsq ≠ 0) ∨
            ((pawn_bb >>> 9) &&& (UMASK ^^^ FILE_H) &&& bitAt tsq ≠ 0)))
    else
      let targets :=
        if piece = KNIGHT then knight_attacks fr
        else if piece = BISHOP then get_bishop_attacks fr pos.all
        else if piece = ROOK then get_rook_attacks fr pos.all
        else if piece = QUEEN then get_queen_attacks fr pos.all
        else king_attacks fr
      targets &&& bitAt tsq ≠ 0

/-- `movegen_is_legal` (`movegen.c:488`): make the move on a copy, flip the
side to move back and test whether the mover's king is attacked. -/
def movegen_is_legal (pos : Position) (move : Nat) : Bool :=
  let temp := (position_make_move pos move).1
  let temp2 := { temp with to_move := temp.to_move ^^^ 1 }
  ¬position_in_check temp2

-- Static exchange evaluation (`see.c`).

/-- The 7-entry table `see_values[] = {100, 320, 330, 500, 900, 20000, 0}`. -/
def see_values : List Int := [100, 320, 330, 500, 900, 20000, 0]

/-- Subscript into `see_values`. The C code feeds it `position_piece_at`
results, which are `0..11`; `7..11` read past the array (undefined
behaviour in C) and are modelled as `0` here. No theorem below relies on
the value of an out-of-bounds read; C10 is precisely about them. -/
def seeValueAt (i : Int) : Int := (see_values.get? i.toNat).getD 0

/-- `get_attackers` (`see.c:10`): all pieces of both colours attacking `sq`
under `occupied`. -/
def get_attackers (pos : Position) (sq : Nat) (occupied : Nat) : Nat :=
  let pawnW : Nat :=
    if sq > 7 then
      (if sq % 8 ≠ 0 ∧ (pos.pieces WHITE PAWN).testBit (sq - 9) then bitAt (sq - 9) else 0) |||
      (if sq % 8 ≠ 7 ∧ (pos.pieces WHITE PAWN).testBit (sq - 7) then bitAt (sq - 7) else 0)
    else 0
  let pawnB : Nat :=
    if sq < 56 then
      (if sq % 8 ≠ 7 ∧ (pos.pieces BLACK PAWN).testBit (sq + 9) then bitAt (sq + 9) else 0) |||
      (if sq % 8 ≠ 0 ∧ (pos.pieces BLACK PAWN).testBit (sq + 7) then bitAt (sq + 7) else 0)
    else 0
  pawnW ||| pawnB |||
    (knight_attacks sq &&& (pos.pieces WHITE KNIGHT ||| pos.pieces BLACK KNIGHT)) |||
    (king_attacks sq &&& (pos.pieces WHITE KING ||| pos.pieces BLACK KING)) |||
    (get_bishop_attacks sq occupied &&&
      (pos.pieces WHITE BISHOP ||| pos.pieces BLACK BISHOP |||
        pos.pieces WHITE QUEEN ||| pos.pieces BLACK QUEEN)) |||
    (get_rook_attacks sq occupied &&&
      (pos.pieces WHITE ROOK ||| pos.pieces BLACK ROOK |||
        pos.pieces WHITE QUEEN ||| pos.pieces BLACK QUEEN))

/-- The "find smallest attacker for current color" loop of `see`. -/
def seeFindAttacker (pos : Position) (color : Nat) (attackers occupied : Nat) :
    Option (Nat × Nat) :=
  match (List.range 6).find? (fun p =>
      attackers &&& occupied &&& pos.pieces color p ≠ 0) with
  | some p => some (LSB (attackers &&& occupied &&& pos.pieces color p), p)
  | none => none

/-- The sliding X-ray update of `see` (`see.c:100-109`); `next_piece` is the
attacker just moved onto the target square. -/
def seeXray (pos : Position) (tsq : Nat) (next_piece : Int) (occupied attackers : Nat) :
    Nat :=
  let a1 :=
    if next_piece = (PAWN : Int) ∨ next_piece = (BISHOP : Int) ∨
        next_piece = (QUEEN : Int) then
      attackers ||| (get_bishop_attacks tsq occupied &&&
        (pos.pieces WHITE BISHOP ||| pos.pieces BLACK BISHOP |||
          pos.pieces WHITE QUEEN ||| pos.pieces BLACK QUEEN))
    else attackers
  if next_piece = (ROOK : Int) ∨ next_piece = (QUEEN : Int) then
    a1 ||| (get_rook_attacks tsq occupied &&&
      (pos.pieces WHITE ROOK ||| pos.pieces BLACK ROOK |||
        pos.pieces WHITE QUEEN ||| pos.pieces BLACK QUEEN))
  else a1

/-- The main `while (d < 31)` loop of `see`, with `fuel` the remaining
iterations. `gains` holds `gain[0..d]` newest first; the tentative
`gain[d]` written before a failed attacker search is discarded exactly as
the C `d--; break` does. -/
def seeLoop (pos : Position) (tsq : Nat) :
    Nat → Nat → Int → Nat → Nat → List Int → List Int
  | 0, _, _, _, _, gains => gains
  | fuel + 1, color, next_piece, occupied, attackers, gains =>
    let g := seeValueAt next_piece - gains.headD 0
    match seeFindAttacker pos color attackers occupied with
    | none => gains
    | some (found_sq, p) =>
      let occupied' := occupied &&& (UMASK ^^^ bitAt found_sq)
      let attackers' := seeXray pos tsq (p : Int) occupied' attackers
      seeLoop pos tsq fuel (color ^^^ 1) (p : Int) occupied' attackers' (g :: gains)

/-- The backward minimax pass `gain[d-1] = -max(-gain[d-1], gain[d])`
applied to `gain[0..d]` in forward order. -/
def seeBackward : List Int → Int
  | [] => 0
  | [g] => g
  | g :: rest => min g (-(seeBackward rest))

/-- `see` (`see.c:48`). -/
def see (pos : Position) (move : Nat) : Int :=
  let fr := MOVE_FROM move
  let tsq := MOVE_TO move
  let captured0 := position_piece_at pos tsq
  if captured0 = -1 ∧ ¬MOVE_IS_SPECIAL move then 0
  else
    let captured : Int := if captured0 = -1 then (PAWN : Int) else captured0
    let attacker := position_piece_at pos fr
    if attacker = -1 then 0
    else
      let occupied := pos.all
      let attackers := get_attackers pos tsq occupied
      let occupied1 := occupied &&& (UMASK ^^^ bitAt fr)
      let color := pos.to_move ^^^ 1
      let gains :=
        seeLoop pos tsq 31 color attacker occupied1 attackers [seeValueAt captured]
      seeBackward gains.reverse

/-- `see_ge`. -/
def see_ge (pos : Position) (move : Nat) (threshold : Int) : Bool :=
  see pos move ≥ threshold

-- Move picker (`movepicker.c`).

/-- The 7-entry table `PIECE_VALUES[] = {100, 320, 330, 500, 900, 20000, 0}`
of `movepicker.c`. -/
def PIECE_VALUES : List Int := [100, 320, 330, 500, 900, 20000, 0]

/-- Subscript into `PIECE_VALUES`; same out-of-bounds caveat as
`seeValueAt`. -/
def pieceValueAt (i : Int) : Int := (PIECE_VALUES.get? i.toNat).getD 0

/-- `score_capture` (`movepicker.c:30`, MVV-LVA). -/
def score_capture (pos : Position) (move : Nat) : Int :=
  let tsq := MOVE_TO move
  let fr := MOVE_FROM move
  let victim0 := position_piece_at pos tsq
  let victim : Int :=
    if victim0 = -1 ∧ (tsq : Int) = pos.enpassant then (PAWN : Int) else victim0
  let attacker := position_piece_at pos fr
  if victim = -1 ∨ attacker = -1 then 0
  else pieceValueAt victim * 10 - pieceValueAt attacker

/-- The inputs `movepicker_init` copies into the picker: TT move, the two
killers, the countermove and the `int*` history pointer
(`state->history[pos->to_move]`, a 6x64 table; `history_null` models the
`NULL` passed by the quiescence initialiser). -/
structure MovePickerCtx where
  tt_move : Nat
  killer1 : Nat
  killer2 : Nat
  countermove : Nat
  history : Nat → Int
  history_null : Bool

/-- `score_quiet` (`movepicker.c:47`): killer/countermove sentinels, then
the bare history entry `history[piece * 64 + to]` where `piece` is the
colour-encoded `position_piece_at` result. -/
def score_quiet (pos : Position) (ctx : MovePickerCtx) (move : Nat) : Int :=
  let fr := MOVE_FROM move
  let tsq := MOVE_TO move
  if move = ctx.killer1 then 1000000
  else if move = ctx.killer2 then 900000
  else if move = ctx.countermove then 800000
  else if ¬ctx.history_null then
    let piece := position_piece_at pos fr
    if piece ≠ -1 then ctx.history (piece.toNat * 64 + tsq) else 0
  else 0

/-- `sort_moves` (`movepicker.c:17`): stable insertion sort, descending by
score (an element is inserted after every earlier element whose score is
not smaller). -/
def insertDescending (x : Nat × Int) : List (Nat × Int) → List (Nat × Int)
  | [] => [x]
  | y :: ys => if y.2 < x.2 then x :: y :: ys else y :: insertDescending x ys

/-- `sort_moves` applied to a whole list (the C sorts in place, processing
indices left to right with a sorted prefix). -/
def sort_moves (l : List (Nat × Int)) : List (Nat × Int) :=
  l.foldl (fun acc x => insertDescending x acc) []

/-- The capture-generation stage (`movepicker.c:118-142`): split the legal
non-TT captures into good (`see ≥ 0`, scored `score_capture + see`) and bad
(scored by their `see` value), in generation order. -/
def movepickerCaptures (pos : Position) (ctx : MovePickerCtx) :
    List (Nat × Int) × List (Nat × Int) :=
  (movegen_captures pos).foldl
    (fun gb m =>
      if m = ctx.tt_move then gb
      else if ¬movegen_is_legal pos m then gb
      else
        let s := see pos m
        if s ≥ 0 then (gb.1 ++ [(m, score_capture pos m + s)], gb.2)
        else (gb.1, gb.2 ++ [(m, s)]))
    ([], [])

/-- The killer stage (`movepicker.c:156-165`): each killer is emitted when
nonzero, distinct from the TT move, not capture-flagged, pseudo-legal and
legal. -/
def movepickerKillers (pos : Position) (ctx : MovePickerCtx) : List Nat :=
  ([ctx.killer1, ctx.killer2]).filter (fun killer =>
    killer ≠ MOVE_NONE ∧ killer ≠ ctx.tt_move ∧ ¬MOVE_IS_CAPTURE killer ∧
      movegen_is_pseudo_legal pos killer ∧ movegen_is_legal pos killer)

/-- The countermove emission test (`movepicker.c:166-173`). -/
def movepickerCounter (pos : Position) (ctx : MovePickerCtx) : List Nat :=
  if ctx.countermove ≠ MOVE_NONE ∧ ctx.countermove ≠ ctx.tt_move ∧
      ctx.countermove ≠ ctx.killer1 ∧ ctx.countermove ≠ ctx.killer2 ∧
      ¬MOVE_IS_CAPTURE ctx.countermove ∧
      movegen_is_pseudo_legal pos ctx.countermove ∧
      movegen_is_legal pos ctx.countermove then
    [ctx.countermove]
  else []

/-- The quiet-generation stage (`movepicker.c:177-194`): all generated moves
except the TT move, killers, countermove, capture-flagged and illegal ones,
scored by `score_quiet`, in generation order. -/
def movepickerQuiets (pos : Position) (ctx : MovePickerCtx) : List (Nat × Int) :=
  ((movegen_all pos).filter (fun m =>
      ¬(m = ctx.tt_move ∨ m = ctx.killer1 ∨ m = ctx.killer2 ∨
        m = ctx.countermove ∨ MOVE_IS_CAPTURE m ∨ ¬movegen_is_legal pos m))).map
    (fun m => (m, score_quiet pos ctx m))

/-- The complete move stream of the staged picker: iterating
`movepicker_next` from `movepicker_init` until `MOVE_NONE` yields exactly
this list (TT move, sorted good captures, killers, countermove, sorted
quiets, sorted bad captures); with `quiescence_mode` it stops after the
good captures (`movepicker.c:149-152`). -/
def movepicker_yield (pos : Position) (ctx : MovePickerCtx)
    (quiescence_mode : Bool) : List Nat :=
  let ttPart :=
    if ctx.tt_move ≠ MOVE_NONE ∧ movegen_is_pseudo_legal pos ctx.tt_move ∧
        movegen_is_legal pos ctx.tt_move then [ctx.tt_move] else []
  let gb := movepickerCaptures pos ctx
  let good := (sort_moves gb.1).map Prod.fst
  if quiescence_mode then ttPart ++ good
  else
    ttPart ++ good ++ movepickerKillers pos ctx ++ movepickerCounter pos ctx ++
      (sort_moves (movepickerQuiets pos ctx)).map Prod.fst ++
      (sort_moves gb.2).map Prod.fst

-- Transposition table (`tt.h` / `tt.c`).

/-- `TT_FLAG_NONE`. -/
def TT_FLAG_NONE : Nat := 0
/-- `TT_FLAG_LOWER`. -/
def TT_FLAG_LOWER : Nat := 1
/-- `TT_FLAG_UPPER`. -/
def TT_FLAG_UPPER : Nat := 2
/-- `TT_FLAG_EXACT`. -/
def TT_FLAG_EXACT : Nat := 3

/-- The C `TTEntry` (`tt.h`). -/
structure TTEntry where
  key : Nat
  score : Int
  best_move : Nat
  depth : Int
  flag : Nat
  generation : Nat
deriving DecidableEq, Inhabited, Repr

/-- The `TranspositionTable`: its cluster array (each cluster the four-entry
`TTCluster`) and current generation; `num_clusters` is `clusters.length`
(`tt_create` makes it a power of two). `count` mirrors the slot counter. -/
structure TranspositionTable where
  clusters : List (List TTEntry)
  generation : Nat
  count : Nat
deriving DecidableEq, Repr

/-- `replacement_value` (`tt.c:70`): `-1000` for an empty slot, otherwise
`depth*4 + (exact ? 16 : 0) - age*2` with wrap-corrected age. -/
def replacement_value (e : TTEntry) (current_gen : Nat) : Int :=
  if e.key = 0 then -1000
  else
    let v1 : Int := e.depth * 4
    let v2 := if e.flag = TT_FLAG_EXACT then v1 + 16 else v1
    let age0 : Int := (current_gen : Int) - (e.generation : Int)
    let age := if age0 < 0 then age0 + 256 else age0
    v2 - age * 2

/-- The worst-entry scan of `tt_store_with_move`: running minimum seeded at
`1000000`, strict improvement only (so the first minimum wins), optionally
skipping one index (the second pass of the deep-exact special case). -/
def ttWorstIdx (entries : List TTEntry) (gen : Nat) (skip : Option Nat) :
    Option Nat :=
  (entries.enum.foldl
    (fun acc ie =>
      if skip = some ie.1 then acc
      else
        let v := replacement_value ie.2 gen
        if v < acc.2 then (some ie.1, v) else acc)
    ((none : Option Nat), (1000000 : Int))).1

/-- The same-key update of `tt_store_with_move` (`tt.c:117-132`), including
the best-move preservation when the incoming move is `MOVE_NONE`. -/
def ttUpdatedEntry (e : TTEntry) (key : Nat) (score : Int) (best_move : Nat)
    (depth : Int) (flag : Nat) (gen : Nat) : TTEntry :=
  let bm := if best_move = MOVE_NONE ∧ e.best_move ≠ MOVE_NONE then e.best_move
    else best_move
  { key := key, score := score, best_move := bm, depth := depth, flag := flag,
    generation := gen }

/-- `tt_store_with_move` restricted to the selected cluster
(`tt.c:106-185`). -/
def tt_store_cluster (entries : List TTEntry) (gen key : Nat) (score : Int)
    (best_move : Nat) (depth : Int) (flag : Nat) : List TTEntry :=
  match entries.findIdx? (fun e => e.key = key) with
  | some i =>
    let e := entries.getD i default
    if depth ≥ e.depth ∨ (flag = TT_FLAG_EXACT ∧ e.flag ≠ TT_FLAG_EXACT) then
      entries.set i (ttUpdatedEntry e key score best_move depth flag gen)
    else entries
  | none =>
    match ttWorstIdx entries gen none with
    | none => entries
    | some r =>
      let re := entries.getD r default
      let r2 :=
        if re.flag = TT_FLAG_EXACT ∧ flag ≠ TT_FLAG_EXACT ∧
            re.depth > depth + 3 ∧ re.generation = gen then
          match ttWorstIdx entries gen (some r) with
          | some s => s
          | none => r
        else r
      entries.set r2
        { key := key, score := score, best_move := best_move, depth := depth,
          flag := flag, generation := gen }

/-- Whether the no-match branch of `tt_store_cluster` increments `count`
(the chosen slot was empty). -/
def ttStoreFilledEmpty (entries : List TTEntry) (gen key : Nat) (score : Int)
    (best_move : Nat) (depth : Int) (flag : Nat) : Bool :=
  (entries.findIdx? (fun e => e.key = key)).isNone ∧
    ((tt_store_cluster entries gen key score best_move depth flag).any
      (fun e => e.key = key)) ∧
    entries.any (fun e => e.key = 0)

/-- `tt_store_with_move` (`tt.c:98`): cluster selection by
`key & (num_clusters - 1)` and the per-cluster store. -/
def tt_store_with_move (tt : TranspositionTable) (key : Nat) (score : Int)
    (best_move : Nat) (depth : Int) (flag : Nat) : TranspositionTable :=
  if tt.clusters.isEmpty then tt
  else
    let index := key &&& (tt.clusters.length - 1)
    let cluster := tt.clusters.getD index []
    let cluster' := tt_store_cluster cluster tt.generation key score best_move depth flag
    { tt with
      clusters := tt.clusters.set index cluster'
      count :=
        if ttStoreFilledEmpty cluster tt.generation key score best_move depth flag then
          tt.count + 1
        else tt.count }

-- Search fragments (`search.c`).

/-- `SCORE_MATE` (`types.h`). -/
def SCORE_MATE : Int := 31000

/-- The stand-pat / delta-pruning head of `quiescence`
(`search.c:1565-1579`): `inl s` means the function returns `s` right there,
`inr a` means it continues with `a` as the (possibly raised) alpha. -/
def quiescence_stand_pat (stand_pat alpha beta : Int) : Sum Int Int :=
  if stand_pat ≥ beta then Sum.inl beta
  else if stand_pat + 900 < alpha then Sum.inl alpha
  else Sum.inr (if stand_pat > alpha then stand_pat else alpha)

/-- The node data consumed by the singular-extension block of `alpha_beta`
(`search.c:1159-1191`). -/
structure SingularCtx where
  ply : Nat
  depth : Int
  tt_move : Nat
  tt_flag : Nat
  tt_score : Int
  excluded_move : Nat

/-- What the singular-extension block did: whether the reduced test search
ran, at which depth, what `state->excluded_move` held while it ran, and the
resulting `singular_extension` flag. -/
structure SingularOutcome where
  attempted : Bool
  test_depth : Int
  excluded_during_test : Nat
  extension : Nat

/-- The singular-extension block (`search.c:1159-1191`). `test_search` is
the recursive `alpha_beta(state, pos, d, a, b)` call as an oracle on
`(d, a, b)`; the block brackets it with
`state->excluded_move = tt_move; ...; state->excluded_move = saved`. -/
def singular_block (c : SingularCtx) (test_search : Int → Int → Int → Int) :
    SingularOutcome :=
  if c.ply > 0 ∧ c.depth ≥ 8 ∧ c.tt_move ≠ MOVE_NONE ∧
      (c.tt_flag = TT_FLAG_LOWER ∨ c.tt_flag = TT_FLAG_EXACT) ∧
      |c.tt_score| < SCORE_MATE - 1000 ∧ c.excluded_move = MOVE_NONE then
    let margin := 2 * c.depth
    let singular_beta := c.tt_score - margin
    let sdepth0 := (c.depth - 1) / 2
    let sdepth := if c.depth > 10 then c.depth - 3 else sdepth0
    let value := test_search sdepth (singular_beta - 1) singular_beta
    { attempted := true, test_depth := sdepth, excluded_during_test := c.tt_move,
      extension := if value < singular_beta then 1 else 0 }
  else
    { attempted := false, test_depth := 0, excluded_during_test := c.excluded_move,
      extension := 0 }

/-- The extension assignment at the head of the move loop
(`search.c:1296-1299`): `extension = 1` when the current move is the TT
move and the singular test succeeded, else the carried base extension. -/
def move_extension (base_extension : Nat) (move tt_move : Nat)
    (singular_extension : Nat) : Nat :=
  if move = tt_move ∧ singular_extension = 1 then 1 else base_extension

/-- The node data consulted by the `continue` conditions of the
`alpha_beta` move loop (`search.c:1216-1335`). `excluded_move` is the
`state->excluded_move` slot (`search.h:164`); it is carried here so that
theorems can state on which inputs the loop's decisions depend. -/
structure MoveLoopCtx where
  excluded_move : Nat
  is_pv : Bool
  in_check : Bool
  depth : Int
  static_eval : Int
  futility_margin : Int
  alpha : Int
  legal_moves : Int

/-- Whether the `alpha_beta` move loop skips (`continue`s past) `move`:
unknown moving piece, futility pruning, late-move pruning, SEE pruning, or
the move being illegal (`search.c:1221-1243`, `1269-1290`, `1327-1335`).
Statistics updates and the depth-1 razoring return are omitted. -/
def move_loop_skips (ctx : MoveLoopCtx) (pos : Position) (move : Nat) : Bool :=
  let fr := MOVE_FROM move
  match (List.range 6).find? (fun p => (pos.pieces pos.to_move p).testBit fr) with
  | none => true
  | some _ =>
    let is_capture := MOVE_IS_CAPTURE move
    let is_promotion := MOVE_PROMO move > 0
    let can_futility := ¬ctx.is_pv ∧ ¬ctx.in_check ∧ ctx.depth ≤ 3 ∧
        ctx.static_eval + ctx.futility_margin ≤ ctx.alpha
    if can_futility ∧ ¬is_capture ∧ ¬is_promotion ∧ ctx.legal_moves > 0 then true
    else if ¬ctx.is_pv ∧ ¬ctx.in_check ∧ ctx.depth ≤ 7 ∧ ¬is_capture ∧
        ¬is_promotion ∧ ctx.legal_moves > 0 ∧
        ctx.legal_moves > 3 + 2 * ctx.depth * ctx.depth then true
    else if ¬ctx.is_pv ∧ ctx.depth ≤ 4 ∧ ¬ctx.in_check ∧ ¬is_capture ∧
        ctx.legal_moves > 0 ∧ see pos move < -50 * ctx.depth then true
    else ¬movegen_is_legal pos move

-- Worker-pool result vote (`threads.c:534-552`).

/-- The best-result scan of `threads_start_search`: start from the main
worker's `(best_move, best_score)` and take a helper's result whenever its
move is not `MOVE_NONE` and its score exceeds the currently selected score
by more than 50. -/
def threads_vote (main_move : Nat) (main_score : Int)
    (helpers : List (Nat × Int)) : Nat × Int :=
  helpers.foldl
    (fun best h => if h.1 ≠ MOVE_NONE ∧ h.2 > best.2 + 50 then h else best)
    (main_move, main_score)

-- Time management (`uci.c:315-476`).

/-- `TM_PHASE_OPENING`. -/
def TM_PHASE_OPENING : Nat := 0
/-- `TM_PHASE_MIDDLE`. -/
def TM_PHASE_MIDDLE : Nat := 1
/-- `TM_PHASE_ENDGAME`. -/
def TM_PHASE_ENDGAME : Nat := 2

/-- The C `TimeControl` struct (`uci.h`). -/
structure TimeControl where
  wtime : Int
  btime : Int
  winc : Int
  binc : Int
  movestogo : Int
  movetime : Int
  infinite : Bool

/-- The C `TimeAllocation` struct. -/
structure TimeAllocation where
  allocated_time : Int
  optimal_time : Int
  max_time : Int
  panic_time : Int
deriving DecidableEq, Repr

/-- The time-bound epilogue of `allocate_time` (`uci.c:437-475`): optimal,
max (clamped to `remaining/4`, then `remaining - 50`, then raised to the
allocated time), allocated (clamped to `remaining/2`, then raised to 50)
and panic times computed from the adjusted base time. -/
def allocate_time_bounds (base remaining : Int) : TimeAllocation :=
  let optimal := base
  let max1 := base * 3
  let max2 := if max1 > remaining / 4 then remaining / 4 else max1
  let allocated1 := base
  let panic1 := base / 3
  let panic2 := if panic1 < 100 then 100 else panic1
  let allocated2 := if allocated1 > remaining / 2 then remaining / 2 else allocated1
  let allocated3 := if allocated2 < 50 then 50 else allocated2
  let max3 := if max2 > remaining - 50 then remaining - 50 else max2
  let max4 := if max3 < allocated3 then allocated3 else max3
  { allocated_time := allocated3, optimal_time := optimal, max_time := max4,
    panic_time := panic2 }

/-- `allocate_time` (`uci.c:315`). `to_move` selects `wtime`/`btime` and
`winc`/`binc` as in the C; `game_phase` stands for
`get_game_phase_for_time(pos)`, whose `phase_eval` input is the evaluator
collaborator (out of core scope per the spec). Every division below has a
non-negative dividend, where C truncation and `Int` division agree. -/
def allocate_time (tc : TimeControl) (to_move : Nat) (game_phase : Nat)
    (last_score : Int) : TimeAllocation :=
  if tc.movetime > 0 then
    { allocated_time := tc.movetime, optimal_time := tc.movetime,
      max_time := tc.movetime, panic_time := tc.movetime / 2 }
  else if tc.infinite then
    { allocated_time := 86400000, optimal_time := 86400000,
      max_time := 86400000, panic_time := 86400000 }
  else
    let remaining_time := if to_move = WHITE then tc.wtime else tc.btime
    let increment := if to_move = WHITE then tc.winc else tc.binc
    if remaining_time ≤ 0 then
      { allocated_time := 5000, optimal_time := 5000, max_time := 10000,
        panic_time := 2000 }
    else
      let moves_to_go :=
        if tc.movestogo = 0 then
          if game_phase = TM_PHASE_OPENING then 35
          else if game_phase = TM_PHASE_MIDDLE then 25
          else if game_phase = TM_PHASE_ENDGAME then 15
          else 25
        else tc.movestogo
      let base1 := remaining_time / (moves_to_go + 3)
      let base2 := if increment > 0 then base1 + increment * 3 / 4 else base1
      let base3 :=
        if game_phase = TM_PHASE_OPENING then base2 * 80 / 100
        else if game_phase = TM_PHASE_ENDGAME then base2 * 120 / 100
        else base2
      let base4 :=
        if last_score ≠ 0 then
          let abs_score := if last_score > 0 then last_score else -last_score
          if abs_score > 300 then
            if last_score > 0 then base3 * 70 / 100 else base3 * 140 / 100
          else if abs_score > 100 then
            if last_score > 0 then base3 * 85 / 100 else base3 * 115 / 100
          else base3
        else base3
      let emergency_threshold := if increment > 0 then 30 * increment else 30000
      let base5 :=
        if remaining_time < emergency_threshold then
          if increment > 0 then remaining_time / 15 + increment / 2
          else remaining_time / 10
        else base4
      let base6 :=
        if increment = 0 ∧ tc.movestogo = 0 then remaining_time / 40 else base5
      allocate_time_bounds base6 remaining_time

-- Spec-modelled definition for the C9 refinement comparison.

/-- Modelled from the spec (§4.G stage 5): quiet moves are scored by
`history + countermove-history/3 + follow-up-history/3 + small defensive
bonus for landing on the opponent's previous destination`. The four terms
are taken as inputs because the picker's quiet scorer receives only the
plain history table (`movepicker_init`, called at `search.c:1199-1201`,
passes `state->history[pos->to_move]` and nothing else). -/
def spec_quiet_score (history cmh fuh defensive_bonus : Int) : Int :=
  history + cmh / 3 + fuh / 3 + defensive_bonus

-- Concrete fixtures for the counterexamples and witnesses below.

/-- Standard-chess castling rook squares (`position_from_fen` defaults). -/
def defaultRooks : Nat → Nat :=
  fun i => if i = 0 then 7 else if i = 1 then 0 else if i = 2 then 63 else 56

/-- White Ke1, black Ke8, black to move, halfmove 3, fullmove 1: fixture for
the C1 round-trip counterexample. -/
def posC1 : Position :=
  { pieces := fun c p =>
      if c = 0 ∧ p = 5 then bitAt 4 else if c = 1 ∧ p = 5 then bitAt 60 else 0
    occupied := fun c =>
      if c = 0 then bitAt 4 else if c = 1 then bitAt 60 else 0
    all := bitAt 4 ||| bitAt 60
    to_move := 1
    castling := 0
    castling_rooks := defaultRooks
    enpassant := -1
    halfmove := 3
    fullmove := 1
    zobrist := 0
    pawn_hash := 0 }

/-- Black Ke8-d8 in `posC1`. -/
def mvC1 : Nat := MAKE_MOVE 60 59 0 FLAG_QUIET

/-- White Ke1 and Nb4; black Kh8 and pawn a6; white to move: fixture for the
C2/SEE counterexample (the capture NxPa6 of an undefended black pawn with
no X-rays). -/
def posC2 : Position :=
  { pieces := fun c p =>
      if c = 0 ∧ p = 5 then bitAt 4
      else if c = 0 ∧ p = 1 then bitAt 25
      else if c = 1 ∧ p = 5 then bitAt 63
      else if c = 1 ∧ p = 0 then bitAt 40
      else 0
    occupied := fun c =>
      if c = 0 then bitAt 4 ||| bitAt 25
      else if c = 1 then bitAt 63 ||| bitAt 40 else 0
    all := bitAt 4 ||| bitAt 25 ||| bitAt 63 ||| bitAt 40
    to_move := 0
    castling := 0
    castling_rooks := defaultRooks
    enpassant := -1
    halfmove := 0
    fullmove := 1
    zobrist := 0
    pawn_hash := 0 }

/-- White Nb4xa6 in `posC2`. -/
def mvC2 : Nat := MAKE_MOVE 25 40 0 FLAG_CAPTURE

/-- C3 fixture cluster: two current-generation exact depth-10 entries and
two current-generation lower-bound depth-20 entries. -/
def e0C3 : TTEntry :=
  { key := 11, score := 0, best_move := 1, depth := 10, flag := 3, generation := 5 }

/-- Second C3 entry (the protected exact entry that gets evicted). -/
def e1C3 : TTEntry :=
  { key := 22, score := 0, best_move := 1, depth := 10, flag := 3, generation := 5 }

/-- Third C3 entry. -/
def e2C3 : TTEntry :=
  { key := 33, score := 0, best_move := 1, depth := 20, flag := 1, generation := 5 }

/-- Fourth C3 entry. -/
def e3C3 : TTEntry :=
  { key := 44, score := 0, best_move := 1, depth := 20, flag := 1, generation := 5 }

/-- One-cluster table holding the C3 fixture cluster at generation 5. -/
def ttC3 : TranspositionTable :=
  { clusters := [[e0C3, e1C3, e2C3, e3C3]], generation := 5, count := 4 }

/-- White Ke1, Rh1 with the king-side castling right; black Ke8; white to
move. Castling e1-h1 is legal here. Fixture for C4 and C6. -/
def posC4 : Position :=
  { pieces := fun c p =>
      if c = 0 ∧ p = 5 then bitAt 4
      else if c = 0 ∧ p = 3 then bitAt 7
      else if c = 1 ∧ p = 5 then bitAt 60
      else 0
    occupied := fun c =>
      if c = 0 then bitAt 4 ||| bitAt 7 else if c = 1 then bitAt 60 else 0
    all := bitAt 4 ||| bitAt 7 ||| bitAt 60
    to_move := 0
    castling := 1
    castling_rooks := defaultRooks
    enpassant := -1
    halfmove := 0
    fullmove := 1
    zobrist := 0
    pawn_hash := 0 }

/-- The white king-side castling move of `posC4` (to-square = rook square,
special flag), as `movegen_all` emits it. -/
def castleMvC4 : Nat := MAKE_MOVE 4 7 0 FLAG_SPECIAL

/-- Picker inputs for C4: the legal castling move is the TT move, no
killers, no countermove, zero history. -/
def ctxC4 : MovePickerCtx :=
  { tt_move := castleMvC4, killer1 := 0, killer2 := 0, countermove := 0,
    history := fun _ => 0, history_null := false }

/-- The quiet rook move Rh1-h2 in `posC4`. -/
def mvRh2 : Nat := MAKE_MOVE 7 15 0 FLAG_QUIET

/-- Picker inputs for the C9 counterexample: no TT move, no killers, no
countermove, zero history table. -/
def ctxC9 : MovePickerCtx :=
  { tt_move := 0, killer1 := 0, killer2 := 0, countermove := 0,
    history := fun _ => 0, history_null := false }

/-- Singular-extension node data for C6: a depth-8 non-root node whose TT
move is `mvRh2` with a usable lower bound. -/
def singCtxC6 : SingularCtx :=
  { ply := 1, depth := 8, tt_move := mvRh2, tt_flag := TT_FLAG_LOWER,
    tt_score := 0, excluded_move := MOVE_NONE }

/-- Move-loop context for C6: the state inside the singular test search of
`singCtxC6` (reduced depth `(8-1)/2 = 3`, null window, first move, not in
check), with `state->excluded_move` holding the TT move. -/
def loopCtxC6 : MoveLoopCtx :=
  { excluded_move := mvRh2, is_pv := false, in_check := false, depth := 3,
    static_eval := 0, futility_margin := 0, alpha := -100, legal_moves := 0 }

/-- White Ra1, Ke1; black Na8, Kh8; white to move: fixture for the C10
out-of-bounds victim index (RxNa8). -/
def posC10 : Position :=
  { pieces := fun c p =>
      if c = 0 ∧ p = 5 then bitAt 4
      else if c = 0 ∧ p = 3 then bitAt 0
      else if c = 1 ∧ p = 5 then bitAt 63
      else if c = 1 ∧ p = 1 then bitAt 56
      else 0
    occupied := fun c =>
      if c = 0 then bitAt 4 ||| bitAt 0
      else if c = 1 then bitAt 63 ||| bitAt 56 else 0
    all := bitAt 4 ||| bitAt 0 ||| bitAt 63 ||| bitAt 56
    to_move := 0
    castling := 0
    castling_rooks := defaultRooks
    enpassant := -1
    halfmove := 0
    fullmove := 1
    zobrist := 0
    pawn_hash := 0 }

/-- White Ra1xa8 in `posC10`. -/
def mvC10 : Nat := MAKE_MOVE 0 56 0 FLAG_CAPTURE

/-- Time control for the C8 counterexample: 60 ms on white's clock, no
increment, sudden death, no fixed move time, not infinite. -/
def tcC8 : TimeControl :=
  { wtime := 60, btime := 0, winc := 0, binc := 0, movestogo := 0,
    movetime := 0, infinite := false }

/-- Time control for the C8 witness: 10 s on white's clock, sudden death. -/
def tcC8w : TimeControl :=
  { wtime := 10000, btime := 0, winc := 0, binc := 0, movestogo := 0,
    movetime := 0, infinite := false }

-- ===========================================================================
-- Theorems.
-- ===========================================================================

-- C5: quiescence stand-pat.

/-- C5, counterexample. The claim says that whenever the static evaluation
is `≥ β`, quiescence returns the static evaluation. At `stand_pat = 100`,
`β = 50` the stand-pat head of `quiescence` returns `β = 50`, not `100`:
the code fails hard (`search.c:1567-1569` is `return beta`). -/
theorem C5_counterexample :
    quiescence_stand_pat 100 0 50 = Sum.inl 50 ∧ (100 : Int) ≥ 50 ∧
      Sum.inl 50 ≠ (Sum.inl 100 : Sum Int Int) := by
  refine ⟨by decide, by decide, by decide⟩

/-- C5, amended: in quiescence, whenever the static evaluation is `≥ β`
(once control reaches the stand-pat check), the search returns `β`
(fail-hard), not the static evaluation. -/
theorem C5_stand_pat_returns_beta (stand_pat alpha beta : Int)
    (h : stand_pat ≥ beta) :
    quiescence_stand_pat stand_pat alpha beta = Sum.inl beta := by
  simp [quiescence_stand_pat, h]

/-- C5 witness: the amended theorem applied at `stand_pat = 100`, `β = 50`. -/
theorem C5_stand_pat_returns_beta_witness :
    quiescence_stand_pat 100 0 50 = Sum.inl 50 :=
  C5_stand_pat_returns_beta 100 0 50 (by decide)

-- C7: worker-pool vote.

/-- C7, counterexample. The claim says a helper whose score is at least
50 cp better is taken. A helper exactly 50 better (`50 ≥ 0 + 50`) with a
real move is NOT taken: `threads.c:545` requires `> best_score + 50`. -/
theorem C7_counterexample :
    threads_vote 5 0 [(9, 50)] = (5, 0) ∧ (9 : Nat) ≠ MOVE_NONE ∧
      (50 : Int) ≥ 0 + 50 ∧ (9 : Nat) ≠ 5 := by
  refine ⟨by decide, by decide, by decide, by decide⟩

/-- Fold invariant behind the C7 vote: the scan either keeps its seed or
lands on a list element whose move is non-`MOVE_NONE` and whose score
exceeds the seed score by more than 50 (the selected score only grows). -/
theorem threads_vote_fold_spec (helpers : List (Nat × Int)) :
    ∀ start : Nat × Int,
      helpers.foldl
          (fun best h => if h.1 ≠ MOVE_NONE ∧ h.2 > best.2 + 50 then h else best)
          start = start ∨
        ∃ h ∈ helpers, h.1 ≠ MOVE_NONE ∧ h.2 > start.2 + 50 ∧
          helpers.foldl
            (fun best h => if h.1 ≠ MOVE_NONE ∧ h.2 > best.2 + 50 then h else best)
            start = h := by
  induction helpers with
  | nil => intro start; exact Or.inl rfl
  | cons x xs ih =>
    intro start
    by_cases hx : x.1 ≠ MOVE_NONE ∧ x.2 > start.2 + 50
    · have hfold : (x :: xs).foldl
          (fun best h => if h.1 ≠ MOVE_NONE ∧ h.2 > best.2 + 50 then h else best)
          start =
          xs.foldl
            (fun best h => if h.1 ≠ MOVE_NONE ∧ h.2 > best.2 + 50 then h else best)
            x := by
        simp [List.foldl_cons, if_pos hx]
      rcases ih x with h1 | ⟨h, hmem, hne, hgt, heq⟩
      · exact Or.inr ⟨x, List.mem_cons_self x xs, hx.1, hx.2, hfold.trans h1⟩
      · exact Or.inr ⟨h, List.mem_cons_of_mem x hmem, hne,
          by omega, hfold.trans heq⟩
    · have hfold : (x :: xs).foldl
          (fun best h => if h.1 ≠ MOVE_NONE ∧ h.2 > best.2 + 50 then h else best)
          start =
          xs.foldl
            (fun best h => if h.1 ≠ MOVE_NONE ∧ h.2 > best.2 + 50 then h else best)
            start := by
        simp [List.foldl_cons, if_neg hx]
      rcases ih start with h1 | ⟨h, hmem, hne, hgt, heq⟩
      · exact Or.inl (hfold.trans h1)
      · exact Or.inr ⟨h, List.mem_cons_of_mem x hmem, hne, hgt, hfold.trans heq⟩

/-- C7, amended: `threads_start_search` returns the main worker's best move
unless some helper produced a non-`MOVE_NONE` move whose score is MORE than
50 cp better than the currently selected score (strict `>`), in which case
that helper's move and score are returned; any such returned helper beats
the main score by more than 50. -/
theorem C7_vote_main_unless_strictly_better (main_move : Nat) (main_score : Int)
    (helpers : List (Nat × Int)) :
    threads_vote main_move main_score helpers = (main_move, main_score) ∨
      ∃ h ∈ helpers, h.1 ≠ MOVE_NONE ∧ h.2 > main_score + 50 ∧
        threads_vote main_move main_score helpers = h :=
  threads_vote_fold_spec helpers (main_move, main_score)

-- C8: time allocation caps.

/-- Bounds of the `allocate_time` epilogue when at least 100 ms remain:
the allocated time lies in `[50, remaining/2]` and the max time is at most
`remaining - 50`, whatever the adjusted base was. -/
theorem allocate_time_bounds_props (base remaining : Int)
    (h : 100 ≤ remaining) :
    50 ≤ (allocate_time_bounds base remaining).allocated_time ∧
      (allocate_time_bounds base remaining).allocated_time ≤ remaining / 2 ∧
      (allocate_time_bounds base remaining).max_time ≤ remaining - 50 := by
  simp only [allocate_time_bounds]
  split_ifs <;> refine ⟨by omega, by omega, by omega⟩

/-- C8, counterexample. With 60 ms remaining (sudden death, no fixed move
time, not infinite) the code allocates 50 ms and caps max at 50 ms, but
`50 > 60/2` and `50 > 60 - 50`: the claimed "never more than half of
remaining" and "max ≤ remaining − 50" both fail (the 50 ms floor at
`uci.c:463-465` is applied after the half-remaining clamp, and
`uci.c:471-473` raises max back to the allocated time). -/
theorem C8_counterexample :
    (allocate_time tcC8 WHITE TM_PHASE_ENDGAME 0).allocated_time = 50 ∧
      (allocate_time tcC8 WHITE TM_PHASE_ENDGAME 0).max_time = 50 ∧
      tcC8.movetime = 0 ∧ tcC8.infinite = false ∧ tcC8.wtime = 60 ∧
      (0 : Int) < 60 ∧ ¬((50 : Int) ≤ 60 / 2) ∧ ¬((50 : Int) ≤ 60 - 50) := by
  refine ⟨by decide, by decide, by decide, by decide, by decide, by decide,
    by decide, by decide⟩

/-- C8, amended: for every time-control input with no fixed move time, not
infinite, and at least 100 ms on the mover's clock, the allocated time is
in `[50 ms, remaining/2]` and the max time is at most `remaining - 50` ms
(for clocks under 100 ms the 50 ms floor overrides both caps). -/
theorem C8_time_caps (tc : TimeControl) (to_move game_phase : Nat)
    (last_score : Int) (hmt : tc.movetime ≤ 0) (hinf : tc.infinite = false)
    (hrem : 100 ≤ (if to_move = WHITE then tc.wtime else tc.btime)) :
    50 ≤ (allocate_time tc to_move game_phase last_score).allocated_time ∧
      (allocate_time tc to_move game_phase last_score).allocated_time ≤
        (if to_move = WHITE then tc.wtime else tc.btime) / 2 ∧
      (allocate_time tc to_move game_phase last_score).max_time ≤
        (if to_move = WHITE then tc.wtime else tc.btime) - 50 := by
  have h1 : ¬tc.movetime > 0 := by omega
  have h3 : ¬(if to_move = WHITE then tc.wtime else tc.btime) ≤ 0 := by omega
  simp only [allocate_time, h1, if_false, hinf, Bool.false_eq_true, if_neg, h3]
  exact allocate_time_bounds_props _ _ hrem

/-- C8 witness: the amended caps at a 10-second sudden-death clock. -/
theorem C8_time_caps_witness :
    50 ≤ (allocate_time tcC8w WHITE TM_PHASE_MIDDLE 0).allocated_time ∧
      (allocate_time tcC8w WHITE TM_PHASE_MIDDLE 0).allocated_time ≤
        (if WHITE = WHITE then tcC8w.wtime else tcC8w.btime) / 2 ∧
      (allocate_time tcC8w WHITE TM_PHASE_MIDDLE 0).max_time ≤
        (if WHITE = WHITE then tcC8w.wtime else tcC8w.btime) - 50 :=
  C8_time_caps tcC8w WHITE TM_PHASE_MIDDLE 0 (by decide) (by decide) (by decide)

-- C10: piece-value table subscripts.

/-- C10: the victim/attacker indices fed to the 7-entry tables are NOT
within `0..6`. In `posC10` the legal capture Ra1xa8 has victim
`position_piece_at = KNIGHT + 6 = 7`, and subscript 7 is past the end of
both `see_values` (`see.c:65` reads `see_values[captured]`) and
`PIECE_VALUES` (`movepicker.c:43`): `List.get?` at 7 is `none`. The black
pawn case lands on index 6, the tables' 0-valued sentinel slot. -/
theorem C10_piece_value_index_out_of_bounds :
    mvC10 ∈ movegen_captures posC10 ∧ movegen_is_legal posC10 mvC10 = true ∧
      position_piece_at posC10 (MOVE_TO mvC10) = 7 ∧
      see_values.get? (position_piece_at posC10 (MOVE_TO mvC10)).toNat = none ∧
      PIECE_VALUES.get? (position_piece_at posC10 (MOVE_TO mvC10)).toNat = none ∧
      see_values.length = 7 := by
  refine ⟨by decide, by decide, by decide, by decide, by decide, by decide⟩

-- C2: SEE bounds.

/-- C2: on the legal capture Nb4xa6 in `posC2` — an undefended black pawn,
no X-rays — the code computes `see = 0`: the colour-encoded victim index
`PAWN + 6 = 6` hits the table's 0-valued sentinel slot instead of the pawn
value. The claim requires `see = value(V) - value(A) = 100 - 320 = -220`
for an undefended capture; `0 ≠ -220` refutes it (and proper SEE,
`value(V) = 100`, differs as well). The conjuncts record the capture, its
legality, that no piece of either side besides the mover attacks a6 (so
the victim is undefended and no X-rays exist), the victim/attacker
indices, and the divergence. -/
theorem C2_see_code_bug :
    mvC2 ∈ movegen_captures posC2 ∧ movegen_is_legal posC2 mvC2 = true ∧
      see posC2 mvC2 = 0 ∧
      get_attackers posC2 (MOVE_TO mvC2) posC2.all &&& posC2.occupied BLACK = 0 ∧
      get_attackers posC2 (MOVE_TO mvC2) posC2.all = bitAt 25 ∧
      position_piece_at posC2 (MOVE_TO mvC2) = 6 ∧
      position_piece_at posC2 (MOVE_FROM mvC2) = 1 ∧
      (0 : Int) ≠ 100 - 320 := by
  refine ⟨by decide, by decide, by decide, by decide, by decide, by decide,
    by decide, by decide⟩

-- C4: staged move picker completeness.

/-- C4: in `posC4` the king-side castling move is generated by
`movegen_all` and is legal, and it is the TT move, yet the full stream of
the staged picker never yields it: `movegen_is_pseudo_legal` rejects the
castling encoding (its to-square is the own rook, `movegen.c:419`), so the
TT stage drops it, and the quiet stage skips any move equal to the TT move
(`movepicker.c:183`). The claimed multiset equality with the legal moves
and the TT-move-first property both fail; every move the picker does yield
is a generated legal move, but one legal move is missing. -/
theorem C4_picker_drops_castling_tt_move :
    castleMvC4 ∈ movegen_all posC4 ∧
      movegen_is_legal posC4 castleMvC4 = true ∧
      ctxC4.tt_move = castleMvC4 ∧
      movegen_is_pseudo_legal posC4 castleMvC4 = false ∧
      castleMvC4 ∉ movepicker_yield posC4 ctxC4 false ∧
      (movepicker_yield posC4 ctxC4 false).length + 1 =
        ((movegen_all posC4).filter (fun m => movegen_is_legal posC4 m)).length := by
  refine ⟨by decide, by decide, by decide, by decide, by decide, by decide⟩

-- C1: make/unmake round trip.

/-- Bits above 63 of a 64-bit word are clear. -/
theorem testBit_ge_64 (x i : Nat) (hx : x < 2 ^ 64) (hi : 64 ≤ i) :
    x.testBit i = false :=
  Nat.testBit_lt_two_pow (lt_of_lt_of_le hx (Nat.pow_le_pow_right (by omega) hi))

/-- `testBit` of `bitAt`. -/
theorem testBit_bitAt (sq i : Nat) : (bitAt sq).testBit i = decide (sq = i) := by
  rw [bitAt, Nat.one_shiftLeft, Nat.testBit_two_pow]

/-- `testBit` of `UMASK`. -/
theorem testBit_UMASK (i : Nat) : UMASK.testBit i = decide (i < 64) := by
  rw [UMASK, Nat.testBit_two_pow_sub_one]

/-- Clearing a set bit and setting it again restores the word. -/
theorem clear_then_set (x sq : Nat) (hx : x < 2 ^ 64) (hsq : sq < 64)
    (hbit : x.testBit sq = true) :
    (x &&& (UMASK ^^^ bitAt sq)) ||| bitAt sq = x := by
  apply Nat.eq_of_testBit_eq
  intro i
  by_cases hi : i < 64
  · by_cases hisq : sq = i
    · subst hisq
      simp [Nat.testBit_or, Nat.testBit_and, hbit, testBit_bitAt]
    · simp [Nat.testBit_or, Nat.testBit_and, Nat.testBit_xor, testBit_bitAt,
        testBit_UMASK, hi, hisq]
  · have h1 := testBit_ge_64 x i hx (by omega)
    have h2 : (bitAt sq).testBit i = false := by
      rw [testBit_bitAt]; simp; omega
    simp [Nat.testBit_or, Nat.testBit_and, h1, h2]

/-- Setting a clear bit and clearing it again restores the word. -/
theorem set_then_clear (x sq : Nat) (hx : x < 2 ^ 64) (hsq : sq < 64)
    (hbit : x.testBit sq = false) :
    (x ||| bitAt sq) &&& (UMASK ^^^ bitAt sq) = x := by
  apply Nat.eq_of_testBit_eq
  intro i
  by_cases hi : i < 64
  · by_cases hisq : sq = i
    · subst hisq
      simp [Nat.testBit_or, Nat.testBit_and, Nat.testBit_xor, hbit,
        testBit_bitAt, testBit_UMASK, hi]
    · simp [Nat.testBit_or, Nat.testBit_and, Nat.testBit_xor, testBit_bitAt,
        testBit_UMASK, hi, hisq]
  · have h1 := testBit_ge_64 x i hx (by omega)
    have h2 : (bitAt sq).testBit i = false := by
      rw [testBit_bitAt]; simp; omega
    simp [Nat.testBit_and, Nat.testBit_or, Nat.testBit_xor, testBit_UMASK,
      h1, h2, hi]

/-- The promotion chain on the mover's pawn board: move the pawn from `fr`
to `tsq` by xor, clear `tsq` (the promotion removes the pawn), then undo by
setting `fr`: the original board, provided the pawn stood on `fr` and not
on `tsq`. -/
theorem promo_pawn_chain (x fr tsq : Nat) (hx : x < 2 ^ 64) (hfr : fr < 64)
    (htsq : tsq < 64) (hbf : x.testBit fr = true) (hbt : x.testBit tsq = false) :
    ((x ^^^ (bitAt fr ||| bitAt tsq)) &&& (UMASK ^^^ bitAt tsq)) ||| bitAt fr
      = x := by
  have hne : fr ≠ tsq := fun h => by rw [h, hbt] at hbf; exact Bool.noConfusion hbf
  apply Nat.eq_of_testBit_eq
  intro i
  by_cases hi : i < 64
  · by_cases hif : fr = i
    · subst hif
      simp [Nat.testBit_or, Nat.testBit_and, Nat.testBit_xor, testBit_bitAt,
        testBit_UMASK, hi, hbf]
    · by_cases hit : tsq = i
      · subst hit
        simp [Nat.testBit_or, Nat.testBit_and, Nat.testBit_xor, testBit_bitAt,
          testBit_UMASK, hi, hbt, hif, Ne.symm hne]
      · simp [Nat.testBit_or, Nat.testBit_and, Nat.testBit_xor, testBit_bitAt,
          testBit_UMASK, hi, hif, hit]
  · have h1 := testBit_ge_64 x i hx (by omega)
    have h2 : (bitAt fr).testBit i = false := by
      rw [testBit_bitAt]; simp; omega
    have h3 : (bitAt tsq).testBit i = false := by
      rw [testBit_bitAt]; simp; omega
    simp [Nat.testBit_or, Nat.testBit_and, Nat.testBit_xor, testBit_UMASK,
      h1, h2, h3, hi]

/-- C1, counterexample. The black king move Ke8-d8 in `posC1` is generated
and legal, yet apply-then-undo does not restore the position byte-for-byte:
`position_make_move` increments the full-move number after a black move
(`position.c:595-596`) and `position_unmake_move` never restores it (the
undo record does not even hold it), so the round-tripped position has
`fullmove = 2` where the original had `1`. The Zobrist hash IS restored. -/
theorem C1_counterexample :
    mvC1 ∈ movegen_all posC1 ∧ movegen_is_legal posC1 mvC1 = true ∧
      (position_unmake_move (position_make_move posC1 mvC1).1 mvC1
          (position_make_move posC1 mvC1).2).fullmove = 2 ∧
      posC1.fullmove = 1 ∧
      position_unmake_move (position_make_move posC1 mvC1).1 mvC1
          (position_make_move posC1 mvC1).2 ≠ posC1 := by
  refine ⟨by decide, by decide, by decide, by decide, ?_⟩
  intro h
  have h2 := congrArg Position.fullmove h
  rw [show (position_unmake_move (position_make_move posC1 mvC1).1 mvC1
      (position_make_move posC1 mvC1).2).fullmove = 2 from by decide] at h2
  rw [show posC1.fullmove = 1 from by decide] at h2
  exact absurd h2 (by decide)

/-- Or of two swapped xor masks cancels. -/
theorem xor_swap_cancel (x a b : Nat) : x ^^^ (a ||| b) ^^^ (b ||| a) = x := by
  rw [Nat.or_comm b a]
  exact Nat.xor_cancel_right (a ||| b) x

/-- Folding bitwise-or over `0..5` respects pointwise-equal inputs. -/
theorem fold_or_congr (A B : Nat → Nat) (h : ∀ p, p < 6 → A p = B p) :
    (List.range 6).foldl (fun acc p => acc ||| A p) 0 =
      (List.range 6).foldl (fun acc p => acc ||| B p) 0 := by
  rw [show List.range 6 = [0, 1, 2, 3, 4, 5] from rfl]
  simp only [List.foldl_cons, List.foldl_nil, h 0 (by omega), h 1 (by omega),
    h 2 (by omega), h 3 (by omega), h 4 (by omega), h 5 (by omega)]

theorem unmake_to_move (P : Position) (mv : Nat) (U : UndoInfo) :
    (position_unmake_move P mv U).to_move = P.to_move ^^^ 1 := rfl

theorem unmake_castling (P : Position) (mv : Nat) (U : UndoInfo) :
    (position_unmake_move P mv U).castling = U.castling := rfl

theorem unmake_enpassant (P : Position) (mv : Nat) (U : UndoInfo) :
    (position_unmake_move P mv U).enpassant = U.enpassant := rfl

theorem unmake_halfmove (P : Position) (mv : Nat) (U : UndoInfo) :
    (position_unmake_move P mv U).halfmove = U.halfmove := rfl

theorem unmake_zobrist (P : Position) (mv : Nat) (U : UndoInfo) :
    (position_unmake_move P mv U).zobrist = U.zobrist := rfl

theorem unmake_pawn_hash (P : Position) (mv : Nat) (U : UndoInfo) :
    (position_unmake_move P mv U).pawn_hash = U.pawn_hash := rfl

theorem unmake_castling_rooks (P : Position) (mv : Nat) (U : UndoInfo) :
    (position_unmake_move P mv U).castling_rooks = P.castling_rooks := by
  by_cases hA : U.moving_piece = (5 : Int) ∧ MOVE_IS_SPECIAL mv = true <;>
    by_cases hB : MOVE_PROMO mv > 0 <;>
      by_cases hC : U.captured ≥ 0 <;>
        by_cases hD : U.moving_piece = (0 : Int) ∧
          ((MOVE_TO mv : Nat) : Int) = U.enpassant <;>
          simp +decide [position_unmake_move, position_move_piece,
            position_set_piece, position_remove_piece, hA, hB, hC, hD,
            KING, PAWN, ROOK, WHITE, BLACK]

theorem unmake_fullmove (P : Position) (mv : Nat) (U : UndoInfo) :
    (position_unmake_move P mv U).fullmove = P.fullmove := by
  by_cases hA : U.moving_piece = (5 : Int) ∧ MOVE_IS_SPECIAL mv = true <;>
    by_cases hB : MOVE_PROMO mv > 0 <;>
      by_cases hC : U.captured ≥ 0 <;>
        by_cases hD : U.moving_piece = (0 : Int) ∧
          ((MOVE_TO mv : Nat) : Int) = U.enpassant <;>
          simp +decide [position_unmake_move, position_move_piece,
            position_set_piece, position_remove_piece, hA, hB, hC, hD,
            KING, PAWN, ROOK, WHITE, BLACK]

theorem unmake_occupied_white (P : Position) (mv : Nat) (U : UndoInfo) :
    (position_unmake_move P mv U).occupied WHITE =
      (List.range 6).foldl
        (fun acc p => acc ||| (position_unmake_move P mv U).pieces WHITE p) 0 := rfl

theorem unmake_occupied_black (P : Position) (mv : Nat) (U : UndoInfo) :
    (position_unmake_move P mv U).occupied BLACK =
      (List.range 6).foldl
        (fun acc p => acc ||| (position_unmake_move P mv U).pieces BLACK p) 0 := rfl

theorem unmake_all (P : Position) (mv : Nat) (U : UndoInfo) :
    (position_unmake_move P mv U).all =
      (position_unmake_move P mv U).occupied WHITE |||
        (position_unmake_move P mv U).occupied BLACK := rfl

theorem make_undo_fields (pos : Position) (move : Nat) (mp : Nat)
    (hfind : (List.range 6).find? (fun p =>
      (pos.pieces pos.to_move p).testBit (MOVE_FROM move)) = some mp) :
    (position_make_move pos move).2.castling = pos.castling ∧
    (position_make_move pos move).2.enpassant = pos.enpassant ∧
    (position_make_move pos move).2.halfmove = pos.halfmove ∧
    (position_make_move pos move).2.zobrist = pos.zobrist ∧
    (position_make_move pos move).2.pawn_hash = pos.pawn_hash ∧
    (position_make_move pos move).2.moving_piece = (mp : Int) := by
  simp only [position_make_move, hfind]
  rcases hcapf : List.find? (fun p => (pos.pieces (pos.to_move ^^^ 1) p).testBit
      (MOVE_TO move)) (List.range 6) with _ | v <;>
    simp only [hcapf] <;> split_ifs <;> exact ⟨rfl, rfl, rfl, rfl, rfl, rfl⟩

theorem set_piece_castling_rooks (pos : Position) (piece color sq : Nat) :
    (position_set_piece pos piece color sq).castling_rooks = pos.castling_rooks :=
  rfl

theorem remove_piece_castling_rooks (pos : Position) (piece color sq : Nat) :
    (position_remove_piece pos piece color sq).castling_rooks =
      pos.castling_rooks := rfl

theorem move_piece_castling_rooks (pos : Position) (piece color fr tsq : Nat) :
    (position_move_piece pos piece color fr tsq).castling_rooks =
      pos.castling_rooks := rfl

theorem set_piece_fullmove (pos : Position) (piece color sq : Nat) :
    (position_set_piece pos piece color sq).fullmove = pos.fullmove := rfl

theorem remove_piece_fullmove (pos : Position) (piece color sq : Nat) :
    (position_remove_piece pos piece color sq).fullmove = pos.fullmove := rfl

theorem move_piece_fullmove (pos : Position) (piece color fr tsq : Nat) :
    (position_move_piece pos piece color fr tsq).fullmove = pos.fullmove := rfl

theorem make_to_move (pos : Position) (move : Nat) (mp : Nat)
    (hfind : (List.range 6).find? (fun p =>
      (pos.pieces pos.to_move p).testBit (MOVE_FROM move)) = some mp) :
    (position_make_move pos move).1.to_move = pos.to_move ^^^ 1 := by
  simp only [position_make_move, hfind]

theorem make_castling_rooks (pos : Position) (move : Nat) (mp : Nat)
    (hfind : (List.range 6).find? (fun p =>
      (pos.pieces pos.to_move p).testBit (MOVE_FROM move)) = some mp) :
    (position_make_move pos move).1.castling_rooks = pos.castling_rooks := by
  rcases hcapf : List.find? (fun p => (pos.pieces (pos.to_move ^^^ 1) p).testBit
      (MOVE_TO move)) (List.range 6) with _ | v <;>
    simp only [position_make_move, hfind, hcapf,
      apply_ite Position.castling_rooks, apply_ite Prod.fst, ite_self,
      set_piece_castling_rooks, remove_piece_castling_rooks,
      move_piece_castling_rooks]

theorem make_fullmove (pos : Position) (move : Nat) (mp : Nat)
    (hfind : (List.range 6).find? (fun p =>
      (pos.pieces pos.to_move p).testBit (MOVE_FROM move)) = some mp) :
    (position_make_move pos move).1.fullmove =
      (if pos.to_move = BLACK then pos.fullmove + 1 else pos.fullmove) := by
  rcases hcapf : List.find? (fun p => (pos.pieces (pos.to_move ^^^ 1) p).testBit
      (MOVE_TO move)) (List.range 6) with _ | v <;>
    simp only [position_make_move, hfind, hcapf,
      apply_ite Position.fullmove, apply_ite Prod.fst, ite_self,
      set_piece_fullmove, remove_piece_fullmove, move_piece_fullmove]

theorem xor1_xor1 (n : Nat) : n ^^^ 1 ^^^ 1 = n := Nat.xor_cancel_right 1 n

theorem make_unmake_pieces_castle (pos : Position) (move : Nat)
    (hfind : (List.range 6).find? (fun p =>
      (pos.pieces pos.to_move p).testBit (MOVE_FROM move)) = some KING)
    (hK2 : MOVE_IS_SPECIAL move = true)
    (hpromo0 : MOVE_PROMO move = 0)
    (hcapnone : (List.range 6).find? (fun p =>
      (pos.pieces (pos.to_move ^^^ 1) p).testBit (MOVE_TO move)) = none) :
    ∀ c, c < 2 → ∀ p, p < 6 →
      (position_unmake_move (position_make_move pos move).1 move
        (position_make_move pos move).2).pieces c p = pos.pieces c p := by
  intro c hc p hp
  simp +decide only [position_make_move, hfind, hcapnone, position_unmake_move,
    position_move_piece, position_set_piece, position_remove_piece,
    hpromo0, hK2, xor1_xor1, KING, PAWN, ROOK, WHITE, BLACK, MOVE_NONE,
    Nat.cast_ofNat, ge_iff_le, ite_true, ite_false, if_true, if_false,
    and_true, and_false, true_and, false_and]
  by_cases hcm : c = pos.to_move <;>
    by_cases hp5 : p = 5 <;>
      by_cases hp3 : p = 3 <;>
        simp +decide only [hcm, hp5, hp3, and_true, and_false, true_and,
          false_and, and_self, ite_true, ite_false, if_true, if_false,
          xor_swap_cancel]

theorem xor1_ne (n : Nat) : n ^^^ 1 ≠ n := by
  intro h
  have h0 := congrArg (fun m => m.testBit 0) h
  simp [Nat.testBit_xor] at h0
  omega

theorem make_unmake_pieces_quiet (pos : Position) (move : Nat) (mp : Nat)
    (hfind : (List.range 6).find? (fun p =>
      (pos.pieces pos.to_move p).testBit (MOVE_FROM move)) = some mp)
    (hK : ¬(mp = KING ∧ MOVE_IS_SPECIAL move = true))
    (hEPf : ¬(mp = PAWN ∧ ((MOVE_TO move : Nat) : Int) = pos.enpassant))
    (hpromo0 : MOVE_PROMO move = 0)
    (hcapnone : (List.range 6).find? (fun p =>
      (pos.pieces (pos.to_move ^^^ 1) p).testBit (MOVE_TO move)) = none) :
    ∀ c, c < 2 → ∀ p, p < 6 →
      (position_unmake_move (position_make_move pos move).1 move
        (position_make_move pos move).2).pieces c p = pos.pieces c p := by
  intro c hc p hp
  rw [show KING = 5 from rfl] at hK
  rw [show PAWN = 0 from rfl] at hEPf
  have hKi : ¬((mp : Int) = (5 : Int) ∧ MOVE_IS_SPECIAL move = true) :=
    fun h => hK ⟨by exact_mod_cast h.1, h.2⟩
  have hEPfi : ¬((mp : Int) = (0 : Int) ∧
      ((MOVE_TO move : Nat) : Int) = pos.enpassant) :=
    fun h => hEPf ⟨by exact_mod_cast h.1, h.2⟩
  simp +decide only [position_make_move, hfind, hcapnone, position_unmake_move,
    position_move_piece, position_set_piece, position_remove_piece,
    hpromo0, hK, hEPf, hKi, hEPfi, xor1_xor1,
    Int.toNat_natCast, KING, PAWN, ROOK, WHITE, BLACK, MOVE_NONE,
    Nat.cast_ofNat, ge_iff_le, ite_true, ite_false, if_true, if_false,
    and_true, and_false, true_and, false_and, iff_false, iff_true,
    apply_ite Position.pieces, ite_apply, ite_self]
  by_cases hcm : c = pos.to_move <;>
    by_cases hpm : p = mp <;>
      simp +decide only [hcm, hpm, and_true, and_false, true_and, false_and,
        and_self, ite_true, ite_false, if_true, if_false, xor_swap_cancel]

theorem make_unmake_pieces_capture (pos : Position) (move : Nat) (mp v : Nat)
    (hfind : (List.range 6).find? (fun p =>
      (pos.pieces pos.to_move p).testBit (MOVE_FROM move)) = some mp)
    (hK : ¬(mp = KING ∧ MOVE_IS_SPECIAL move = true))
    (hEPf : ¬(mp = PAWN ∧ ((MOVE_TO move : Nat) : Int) = pos.enpassant))
    (hpromo0 : MOVE_PROMO move = 0)
    (hcap : (List.range 6).find? (fun p =>
      (pos.pieces (pos.to_move ^^^ 1) p).testBit (MOVE_TO move)) = some v)
    (htm : pos.to_move < 2)
    (hw : ∀ c, c < 2 → ∀ p, p < 6 → pos.pieces c p < 2 ^ 64) :
    ∀ c, c < 2 → ∀ p, p < 6 →
      (position_unmake_move (position_make_move pos move).1 move
        (position_make_move pos move).2).pieces c p = pos.pieces c p := by
  intro c hc p hp
  rw [show KING = 5 from rfl] at hK
  rw [show PAWN = 0 from rfl] at hEPf
  have hKi : ¬((mp : Int) = (5 : Int) ∧ MOVE_IS_SPECIAL move = true) :=
    fun h => hK ⟨by exact_mod_cast h.1, h.2⟩
  have hEPfi : ¬((mp : Int) = (0 : Int) ∧
      ((MOVE_TO move : Nat) : Int) = pos.enpassant) :=
    fun h => hEPf ⟨by exact_mod_cast h.1, h.2⟩
  have hv6 : v < 6 := List.mem_range.mp (List.mem_of_find?_eq_some hcap)
  have hvbit : (pos.pieces (pos.to_move ^^^ 1) v).testBit (MOVE_TO move)
      = true := by simpa using List.find?_some hcap
  have htsq64 : MOVE_TO move < 64 :=
    lt_of_le_of_lt Nat.and_le_right (by decide)
  have hne : pos.to_move ^^^ 1 ≠ pos.to_move := xor1_ne _
  have htm01 : pos.to_move = 0 ∨ pos.to_move = 1 := by omega
  have henemy2 : pos.to_move ^^^ 1 < 2 := by
    rcases htm01 with h | h <;> rw [h] <;> decide
  simp +decide only [position_make_move, hfind, hcap, position_unmake_move,
    position_move_piece, position_set_piece, position_remove_piece,
    hpromo0, hK, hEPf, hKi, hEPfi, xor1_xor1,
    Int.toNat_natCast, Int.natCast_nonneg, KING, PAWN, ROOK, WHITE, BLACK,
    MOVE_NONE, Nat.cast_ofNat, Nat.cast_zero, Nat.cast_one, ge_iff_le,
    ite_true, ite_false, if_true,
    if_false, and_true, and_false, true_and, false_and, iff_false, iff_true,
    apply_ite Position.pieces, ite_apply, ite_self]
  by_cases hce : c = pos.to_move ^^^ 1 <;>
    by_cases hcm : c = pos.to_move <;>
      by_cases hpv : p = v <;>
        by_cases hpm : p = mp <;>
          simp +decide only [hce, hcm, hpv, hpm, hne, and_true, and_false,
            true_and, false_and, and_self, ite_true, ite_false, if_true,
            if_false, xor_swap_cancel]
  all_goals first
    | rfl
    | (exact absurd (hcm.symm.trans hce) (Ne.symm hne))
    | (exact clear_then_set _ _ (hw _ henemy2 _ hv6) htsq64 hvbit)
    | (simp +decide only [hpm.symm.trans hpv, Ne.symm hne, hne, ite_true,
        ite_false, if_true, if_false] <;>
       first
         | rfl
         | (exact clear_then_set _ _ (hw _ henemy2 _ hv6) htsq64 hvbit)
         | (exact xor_swap_cancel _ _ _))
    | (simp +decide only [show ¬(v = mp) from fun h => hpm (hpv.trans h),
        Ne.symm hne, hne, ite_true, ite_false, if_true, if_false] <;>
       first
         | rfl
         | (exact clear_then_set _ _ (hw _ henemy2 _ hv6) htsq64 hvbit))
    | (simp +decide only [show ¬(mp = v) from fun h => hpv (hpm.trans h),
        Ne.symm hne, hne, ite_true, ite_false, if_true, if_false] <;>
       first
         | rfl
         | (exact clear_then_set _ _ (hw _ henemy2 _ hv6) htsq64 hvbit))
    | (simp +decide only [hpv.symm.trans hpm, Ne.symm hne, hne, ite_true,
        ite_false, if_true, if_false] <;>
       first
         | rfl
         | (exact xor_swap_cancel _ _ _))

theorem make_unmake_pieces_ep (pos : Position) (move : Nat)
    (hfind : (List.range 6).find? (fun p =>
      (pos.pieces pos.to_move p).testBit (MOVE_FROM move)) = some PAWN)
    (hepEq : ((MOVE_TO move : Nat) : Int) = pos.enpassant)
    (hpromo0 : MOVE_PROMO move = 0)
    (hcapnone : (List.range 6).find? (fun p =>
      (pos.pieces (pos.to_move ^^^ 1) p).testBit (MOVE_TO move)) = none)
    (hepbit : (pos.pieces (pos.to_move ^^^ 1) PAWN).testBit
      (SQ (SQ_FILE (MOVE_TO move)) (SQ_RANK (MOVE_FROM move))) = true)
    (htm : pos.to_move < 2)
    (hw : ∀ c, c < 2 → ∀ p, p < 6 → pos.pieces c p < 2 ^ 64) :
    ∀ c, c < 2 → ∀ p, p < 6 →
      (position_unmake_move (position_make_move pos move).1 move
        (position_make_move pos move).2).pieces c p = pos.pieces c p := by
  intro c hc p hp
  have hne : pos.to_move ^^^ 1 ≠ pos.to_move := xor1_ne _
  have htm01 : pos.to_move = 0 ∨ pos.to_move = 1 := by omega
  have henemy2 : pos.to_move ^^^ 1 < 2 := by
    rcases htm01 with h | h <;> rw [h] <;> decide
  have hcsq : SQ (SQ_FILE (MOVE_TO move)) (SQ_RANK (MOVE_FROM move)) < 64 := by
    have h1 : MOVE_FROM move ≤ 63 := Nat.and_le_right
    have h2 : MOVE_TO move &&& 7 ≤ 7 := Nat.and_le_right
    simp only [SQ, SQ_FILE, SQ_RANK, Nat.shiftRight_eq_div_pow]
    omega
  have hepbit' : (pos.pieces (pos.to_move ^^^ 1) 0).testBit
      (SQ (SQ_FILE (MOVE_TO move)) (SQ_RANK (MOVE_FROM move))) = true := hepbit
  simp +decide only [position_make_move, hfind, hcapnone, position_unmake_move,
    position_move_piece, position_set_piece, position_remove_piece,
    hpromo0, hepEq, xor1_xor1,
    Int.toNat_natCast, Int.toNat_zero, Int.toNat_one, Int.natCast_nonneg, KING, PAWN, ROOK, WHITE, BLACK,
    MOVE_NONE, Nat.cast_ofNat, Nat.cast_zero, Nat.cast_one, ge_iff_le,
    ite_true, ite_false, if_true,
    if_false, and_true, and_false, true_and, false_and, iff_false, iff_true,
    apply_ite Position.pieces, ite_apply, ite_self]
  by_cases hce : c = pos.to_move ^^^ 1 <;>
    by_cases hcm : c = pos.to_move <;>
      by_cases hp0 : p = 0 <;>
        simp +decide only [hce, hcm, hp0, hne, Ne.symm hne, and_true,
          and_false, true_and, false_and, and_self, ite_true, ite_false,
          if_true, if_false, xor_swap_cancel]
  all_goals first
    | rfl
    | (exact absurd (hcm.symm.trans hce) (Ne.symm hne))
    | (exact clear_then_set _ _ (hw _ henemy2 _ (by decide)) hcsq hepbit')

theorem make_unmake_pieces_promo (pos : Position) (move : Nat)
    (hfind : (List.range 6).find? (fun p =>
      (pos.pieces pos.to_move p).testBit (MOVE_FROM move)) = some PAWN)
    (hPr : MOVE_PROMO move > 0)
    (hpr6 : MOVE_PROMO move < 6)
    (henp : ((MOVE_TO move : Nat) : Int) ≠ pos.enpassant)
    (hcapnone : (List.range 6).find? (fun p =>
      (pos.pieces (pos.to_move ^^^ 1) p).testBit (MOVE_TO move)) = none)
    (hzbit : (pos.pieces pos.to_move (MOVE_PROMO move)).testBit (MOVE_TO move)
      = false)
    (hxbitt : (pos.pieces pos.to_move PAWN).testBit (MOVE_TO move) = false)
    (htm : pos.to_move < 2)
    (hw : ∀ c, c < 2 → ∀ p, p < 6 → pos.pieces c p < 2 ^ 64) :
    ∀ c, c < 2 → ∀ p, p < 6 →
      (position_unmake_move (position_make_move pos move).1 move
        (position_make_move pos move).2).pieces c p = pos.pieces c p := by
  intro c hc p hp
  have hne : pos.to_move ^^^ 1 ≠ pos.to_move := xor1_ne _
  have hprne : MOVE_PROMO move ≠ 0 := by omega
  have hfr64 : MOVE_FROM move < 64 :=
    lt_of_le_of_lt Nat.and_le_right (by decide)
  have htsq64 : MOVE_TO move < 64 :=
    lt_of_le_of_lt Nat.and_le_right (by decide)
  have hxbitf : (pos.pieces pos.to_move 0).testBit (MOVE_FROM move) = true := by
    simpa using List.find?_some hfind
  have hEPf : ¬((0 : Nat) = 0 ∧ ((MOVE_TO move : Nat) : Int) = pos.enpassant) :=
    fun h => henp h.2
  simp +decide only [position_make_move, hfind, hcapnone, position_unmake_move,
    position_move_piece, position_set_piece, position_remove_piece,
    hPr, hEPf, henp, xor1_xor1,
    Int.toNat_natCast, Int.toNat_zero, Int.toNat_one, Int.natCast_nonneg,
    KING, PAWN, ROOK, WHITE, BLACK,
    MOVE_NONE, Nat.cast_ofNat, Nat.cast_zero, Nat.cast_one, ge_iff_le,
    ite_true, ite_false, if_true,
    if_false, and_true, and_false, true_and, false_and, iff_false, iff_true,
    apply_ite Position.pieces, ite_apply, ite_self]
  by_cases hcm : c = pos.to_move <;>
    by_cases hp0 : p = 0 <;>
      by_cases hppr : p = MOVE_PROMO move <;>
        simp +decide only [hcm, hp0, hppr, hne, Ne.symm hne, hprne,
          Ne.symm hprne, and_true,
          and_false, true_and, false_and, and_self, ite_true, ite_false,
          if_true, if_false, xor_swap_cancel]
  all_goals first
    | rfl
    | (exact absurd (hp0.symm.trans hppr) (fun h => hprne h.symm))
    | (exact set_then_clear _ _ (hw _ htm _ hpr6) htsq64 hzbit)
    | (exact promo_pawn_chain _ _ _ (hw _ htm _ (by decide)) hfr64 htsq64
        hxbitf hxbitt)

theorem make_unmake_pieces_promo_capture (pos : Position) (move : Nat)
    (v : Nat)
    (hfind : (List.range 6).find? (fun p =>
      (pos.pieces pos.to_move p).testBit (MOVE_FROM move)) = some PAWN)
    (hPr : MOVE_PROMO move > 0)
    (hpr6 : MOVE_PROMO move < 6)
    (henp : ((MOVE_TO move : Nat) : Int) ≠ pos.enpassant)
    (hcap : (List.range 6).find? (fun p =>
      (pos.pieces (pos.to_move ^^^ 1) p).testBit (MOVE_TO move)) = some v)
    (hzbit : (pos.pieces pos.to_move (MOVE_PROMO move)).testBit (MOVE_TO move)
      = false)
    (hxbitt : (pos.pieces pos.to_move PAWN).testBit (MOVE_TO move) = false)
    (htm : pos.to_move < 2)
    (hw : ∀ c, c < 2 → ∀ p, p < 6 → pos.pieces c p < 2 ^ 64) :
    ∀ c, c < 2 → ∀ p, p < 6 →
      (position_unmake_move (position_make_move pos move).1 move
        (position_make_move pos move).2).pieces c p = pos.pieces c p := by
  intro c hc p hp
  have hne : pos.to_move ^^^ 1 ≠ pos.to_move := xor1_ne _
  have hprne : MOVE_PROMO move ≠ 0 := by omega
  have hfr64 : MOVE_FROM move < 64 :=
    lt_of_le_of_lt Nat.and_le_right (by decide)
  have htsq64 : MOVE_TO move < 64 :=
    lt_of_le_of_lt Nat.and_le_right (by decide)
  have hv6 : v < 6 := List.mem_range.mp (List.mem_of_find?_eq_some hcap)
  have hvbit : (pos.pieces (pos.to_move ^^^ 1) v).testBit (MOVE_TO move)
      = true := by simpa using List.find?_some hcap
  have htm01 : pos.to_move = 0 ∨ pos.to_move = 1 := by omega
  have henemy2 : pos.to_move ^^^ 1 < 2 := by
    rcases htm01 with h | h <;> rw [h] <;> decide
  have hxbitf : (pos.pieces pos.to_move 0).testBit (MOVE_FROM move) = true := by
    simpa using List.find?_some hfind
  have hEPf : ¬((0 : Nat) = 0 ∧ ((MOVE_TO move : Nat) : Int) = pos.enpassant) :=
    fun h => henp h.2
  simp +decide only [position_make_move, hfind, hcap, position_unmake_move,
    position_move_piece, position_set_piece, position_remove_piece,
    hPr, hEPf, henp, xor1_xor1,
    Int.toNat_natCast, Int.toNat_zero, Int.toNat_one, Int.natCast_nonneg,
    KING, PAWN, ROOK, WHITE, BLACK,
    MOVE_NONE, Nat.cast_ofNat, Nat.cast_zero, Nat.cast_one, ge_iff_le,
    ite_true, ite_false, if_true,
    if_false, and_true, and_false, true_and, false_and, iff_false, iff_true,
    apply_ite Position.pieces, ite_apply, ite_self]
  by_cases hce : c = pos.to_move ^^^ 1 <;>
    by_cases hcm : c = pos.to_move <;>
      by_cases hp0 : p = 0 <;>
        by_cases hppr : p = MOVE_PROMO move <;>
          by_cases hpv : p = v <;>
            simp +decide only [hce, hcm, hp0, hppr, hpv, hne, Ne.symm hne,
              hprne, Ne.symm hprne, and_true,
              and_false, true_and, false_and, and_self, ite_true, ite_false,
              if_true, if_false, xor_swap_cancel]
  all_goals first
    | rfl
    | (exact absurd (hcm.symm.trans hce) (Ne.symm hne))
    | (exact absurd (hp0.symm.trans hppr) (fun h => hprne h.symm))
    | (exact set_then_clear _ _ (hw _ htm _ hpr6) htsq64 hzbit)
    | (exact promo_pawn_chain _ _ _ (hw _ htm _ (by decide)) hfr64 htsq64
        hxbitf hxbitt)
    | (exact clear_then_set _ _ (hw _ henemy2 _ hv6) htsq64 hvbit)
    | (simp +decide only [show ¬(v = MOVE_PROMO move) from
          fun h => hppr (hpv.trans h),
        show ¬(v = 0) from fun h => hp0 (hpv.trans h),
        Ne.symm hne, hne, ite_true, ite_false, if_true, if_false] <;>
       first
         | rfl
         | (exact clear_then_set _ _ (hw _ henemy2 _ hv6) htsq64 hvbit))
    | (simp +decide only [show ¬(0 = v) from fun h => hpv (hp0.trans h),
        Ne.symm hne, hne, ite_true, ite_false, if_true, if_false] <;>
       first
         | rfl
         | (exact promo_pawn_chain _ _ _ (hw _ htm _ (by decide)) hfr64 htsq64
             hxbitf hxbitt))
    | (simp +decide only [show ¬(MOVE_PROMO move = v) from
          fun h => hpv (hppr.trans h),
        Ne.symm hne, hne, ite_true, ite_false, if_true, if_false] <;>
       first
         | rfl
         | (exact set_then_clear _ _ (hw _ htm _ hpr6) htsq64 hzbit))
    | (simp +decide only [(hp0.symm.trans hpv).symm, Ne.symm hne, hne,
        ite_true, ite_false, if_true, if_false] <;>
       first
         | rfl
         | (exact clear_then_set _ _ (hw _ henemy2 _ (by decide)) htsq64
             (by rw [show v = 0 from (hp0.symm.trans hpv).symm] at hvbit
                 exact hvbit)))
    | (simp +decide only [hppr.symm.trans hpv, Ne.symm hne, hne,
        ite_true, ite_false, if_true, if_false] <;>
       first
         | rfl
         | (exact clear_then_set _ _ (hw _ henemy2 _ hv6) htsq64 hvbit))

/-- C1, amended. Make-then-unmake restores every field of the position
except the full-move counter, which ends one higher when the mover was
black; the Zobrist hash and pawn hash are restored exactly. The
hypotheses are the invariants a legal move on a well-formed position
satisfies: a mover is found on the from-square, boards are 64-bit, the
occupancy boards agree with the piece boards, promotions move a pawn to
a free target, en passant targets hold the captured pawn one rank back,
and castling targets (the own rook square) hold no enemy piece. -/
theorem C1_apply_undo (pos : Position) (move : Nat) (mp : Nat)
    (hfind : (List.range 6).find? (fun p =>
      (pos.pieces pos.to_move p).testBit (MOVE_FROM move)) = some mp)
    (htm : pos.to_move < 2)
    (hw : ∀ c, c < 2 → ∀ p, p < 6 → pos.pieces c p < 2 ^ 64)
    (hoccW : pos.occupied WHITE =
      (List.range 6).foldl (fun acc p => acc ||| pos.pieces WHITE p) 0)
    (hoccB : pos.occupied BLACK =
      (List.range 6).foldl (fun acc p => acc ||| pos.pieces BLACK p) 0)
    (hall : pos.all = pos.occupied WHITE ||| pos.occupied BLACK)
    (hpromo : MOVE_PROMO move ≠ 0 → mp = PAWN ∧ MOVE_PROMO move < 6 ∧
      (pos.pieces pos.to_move (MOVE_PROMO move)).testBit (MOVE_TO move)
        = false ∧
      (pos.pieces pos.to_move PAWN).testBit (MOVE_TO move) = false)
    (hep : mp = PAWN → ((MOVE_TO move : Nat) : Int) = pos.enpassant →
      MOVE_PROMO move = 0 ∧
      (pos.pieces (pos.to_move ^^^ 1) PAWN).testBit
        (SQ (SQ_FILE (MOVE_TO move)) (SQ_RANK (MOVE_FROM move))) = true ∧
      ∀ p, p < 6 →
        (pos.pieces (pos.to_move ^^^ 1) p).testBit (MOVE_TO move) = false)
    (hcas : mp = KING → MOVE_IS_SPECIAL move = true →
      ∀ p, p < 6 →
        (pos.pieces (pos.to_move ^^^ 1) p).testBit (MOVE_TO move) = false) :
    (∀ c, c < 2 → ∀ p, p < 6 →
      (position_unmake_move (position_make_move pos move).1 move
        (position_make_move pos move).2).pieces c p = pos.pieces c p) ∧
    (position_unmake_move (position_make_move pos move).1 move
      (position_make_move pos move).2).occupied WHITE = pos.occupied WHITE ∧
    (position_unmake_move (position_make_move pos move).1 move
      (position_make_move pos move).2).occupied BLACK = pos.occupied BLACK ∧
    (position_unmake_move (position_make_move pos move).1 move
      (position_make_move pos move).2).all = pos.all ∧
    (position_unmake_move (position_make_move pos move).1 move
      (position_make_move pos move).2).to_move = pos.to_move ∧
    (position_unmake_move (position_make_move pos move).1 move
      (position_make_move pos move).2).castling = pos.castling ∧
    (position_unmake_move (position_make_move pos move).1 move
      (position_make_move pos move).2).castling_rooks = pos.castling_rooks ∧
    (position_unmake_move (position_make_move pos move).1 move
      (position_make_move pos move).2).enpassant = pos.enpassant ∧
    (position_unmake_move (position_make_move pos move).1 move
      (position_make_move pos move).2).halfmove = pos.halfmove ∧
    (position_unmake_move (position_make_move pos move).1 move
      (position_make_move pos move).2).zobrist = pos.zobrist ∧
    (position_unmake_move (position_make_move pos move).1 move
      (position_make_move pos move).2).pawn_hash = pos.pawn_hash ∧
    (position_unmake_move (position_make_move pos move).1 move
      (position_make_move pos move).2).fullmove =
      (if pos.to_move = BLACK then pos.fullmove + 1 else pos.fullmove) := by
  obtain ⟨hUcas, hUep, hUhalf, hUzob, hUph, hUmp⟩ :=
    make_undo_fields pos move mp hfind
  have hpieces : ∀ c, c < 2 → ∀ p, p < 6 →
      (position_unmake_move (position_make_move pos move).1 move
        (position_make_move pos move).2).pieces c p = pos.pieces c p := by
    by_cases hK : mp = KING ∧ MOVE_IS_SPECIAL move = true
    · obtain ⟨hK1, hK2⟩ := hK
      subst hK1
      have hprom0 : MOVE_PROMO move = 0 := by
        by_contra h
        exact absurd (hpromo h).1 (by decide)
      have hcapn : (List.range 6).find? (fun p =>
          (pos.pieces (pos.to_move ^^^ 1) p).testBit (MOVE_TO move)) = none :=
        List.find?_eq_none.mpr (fun a ha => by
          simp [hcas rfl hK2 a (List.mem_range.mp ha)])
      exact make_unmake_pieces_castle pos move hfind hK2 hprom0 hcapn
    · by_cases hEP : mp = PAWN ∧ ((MOVE_TO move : Nat) : Int) = pos.enpassant
      · obtain ⟨hEP1, hEP2⟩ := hEP
        subst hEP1
        obtain ⟨hpr0, hbit, hallb⟩ := hep rfl hEP2
        have hcapn : (List.range 6).find? (fun p =>
            (pos.pieces (pos.to_move ^^^ 1) p).testBit (MOVE_TO move))
              = none :=
          List.find?_eq_none.mpr (fun a ha => by
            simp [hallb a (List.mem_range.mp ha)])
        exact make_unmake_pieces_ep pos move hfind hEP2 hpr0 hcapn hbit htm hw
      · by_cases hPr : MOVE_PROMO move = 0
        · rcases hcapf : (List.range 6).find? (fun p =>
              (pos.pieces (pos.to_move ^^^ 1) p).testBit (MOVE_TO move))
              with _ | v
          · exact make_unmake_pieces_quiet pos move mp hfind hK hEP hPr hcapf
          · exact make_unmake_pieces_capture pos move mp v hfind hK hEP hPr
              hcapf htm hw
        · obtain ⟨hmp0, hpr6, hz, hx⟩ := hpromo hPr
          subst hmp0
          have henp : ((MOVE_TO move : Nat) : Int) ≠ pos.enpassant :=
            fun h => hEP ⟨rfl, h⟩
          rcases hcapf : (List.range 6).find? (fun p =>
              (pos.pieces (pos.to_move ^^^ 1) p).testBit (MOVE_TO move))
              with _ | v
          · exact make_unmake_pieces_promo pos move hfind
              (Nat.pos_of_ne_zero hPr) hpr6 henp hcapf hz hx htm hw
          · exact make_unmake_pieces_promo_capture pos move v hfind
              (Nat.pos_of_ne_zero hPr) hpr6 henp hcapf hz hx htm hw
  have hoW : (position_unmake_move (position_make_move pos move).1 move
      (position_make_move pos move).2).occupied WHITE = pos.occupied WHITE := by
    rw [unmake_occupied_white,
      fold_or_congr _ _ (fun p hp => hpieces WHITE (by decide) p hp), ← hoccW]
  have hoB : (position_unmake_move (position_make_move pos move).1 move
      (position_make_move pos move).2).occupied BLACK = pos.occupied BLACK := by
    rw [unmake_occupied_black,
      fold_or_congr _ _ (fun p hp => hpieces BLACK (by decide) p hp), ← hoccB]
  refine ⟨hpieces, hoW, hoB, ?_, ?_, ?_, ?_, ?_, ?_, ?_, ?_, ?_⟩
  · rw [unmake_all, hoW, hoB, ← hall]
  · rw [unmake_to_move, make_to_move pos move mp hfind, xor1_xor1]
  · rw [unmake_castling, hUcas]
  · rw [unmake_castling_rooks, make_castling_rooks pos move mp hfind]
  · rw [unmake_enpassant, hUep]
  · rw [unmake_halfmove, hUhalf]
  · rw [unmake_zobrist, hUzob]
  · rw [unmake_pawn_hash, hUph]
  · rw [unmake_fullmove, make_fullmove pos move mp hfind]

theorem C1_apply_undo_witness :
    (position_unmake_move (position_make_move posC1 mvC1).1 mvC1
      (position_make_move posC1 mvC1).2).zobrist = posC1.zobrist ∧
    (position_unmake_move (position_make_move posC1 mvC1).1 mvC1
      (position_make_move posC1 mvC1).2).fullmove =
      (if posC1.to_move = BLACK then posC1.fullmove + 1
       else posC1.fullmove) := by
  have h := C1_apply_undo posC1 mvC1 KING (by decide) (by decide)
    (by intro c hc p hp
        interval_cases c <;> interval_cases p <;> decide)
    (by decide) (by decide) (by decide)
    (fun hpr => absurd (by decide : MOVE_PROMO mvC1 = 0) hpr)
    (fun hp => absurd hp (by decide))
    (fun _ hs => absurd hs (by decide))
  exact ⟨h.2.2.2.2.2.2.2.2.2.1, h.2.2.2.2.2.2.2.2.2.2.2⟩

-- C3: transposition-table replacement.

/-- Invariant of the worst-entry scan: the running minimum never grows, ends
below every non-skipped element's replacement value, and the final
accumulator is either untouched or the (index, value) of some non-skipped
element. -/
theorem ttWorst_fold_spec (gen : Nat) (skip : Option Nat)
    (l : List (Nat × TTEntry)) :
    ∀ acc : Option Nat × Int,
      (l.foldl (fun acc ie =>
          if skip = some ie.1 then acc
          else
            let v := replacement_value ie.2 gen
            if v < acc.2 then (some ie.1, v) else acc) acc).2 ≤ acc.2 ∧
      (∀ ie ∈ l, skip ≠ some ie.1 →
        (l.foldl (fun acc ie =>
            if skip = some ie.1 then acc
            else
              let v := replacement_value ie.2 gen
              if v < acc.2 then (some ie.1, v) else acc) acc).2 ≤
          replacement_value ie.2 gen) ∧
      ((l.foldl (fun acc ie =>
          if skip = some ie.1 then acc
          else
            let v := replacement_value ie.2 gen
            if v < acc.2 then (some ie.1, v) else acc) acc) = acc ∨
        ∃ ie ∈ l, skip ≠ some ie.1 ∧
          (l.foldl (fun acc ie =>
              if skip = some ie.1 then acc
              else
                let v := replacement_value ie.2 gen
                if v < acc.2 then (some ie.1, v) else acc) acc) =
            (some ie.1, replacement_value ie.2 gen)) := by
  induction l with
  | nil => intro acc; exact ⟨le_refl _, by simp, Or.inl rfl⟩
  | cons x xs ih =>
    intro acc
    by_cases hskip : skip = some x.1
    · have hstep : (x :: xs).foldl (fun acc ie =>
          if skip = some ie.1 then acc
          else
            let v := replacement_value ie.2 gen
            if v < acc.2 then (some ie.1, v) else acc) acc =
          xs.foldl (fun acc ie =>
            if skip = some ie.1 then acc
            else
              let v := replacement_value ie.2 gen
              if v < acc.2 then (some ie.1, v) else acc) acc := by
        simp [List.foldl_cons, if_pos hskip]
      obtain ⟨h1, h2, h3⟩ := ih acc
      refine ⟨hstep ▸ h1, ?_, ?_⟩
      · intro ie hie hne
        rcases List.mem_cons.mp hie with rfl | hmem
        · exact absurd hskip hne
        · exact hstep ▸ h2 ie hmem hne
      · rcases h3 with h | ⟨ie, hmem, hne, heq⟩
        · exact Or.inl (hstep ▸ h)
        · exact Or.inr ⟨ie, List.mem_cons_of_mem x hmem, hne, hstep ▸ heq⟩
    · by_cases hlt : replacement_value x.2 gen < acc.2
      · have hstep : (x :: xs).foldl (fun acc ie =>
            if skip = some ie.1 then acc
            else
              let v := replacement_value ie.2 gen
              if v < acc.2 then (some ie.1, v) else acc) acc =
            xs.foldl (fun acc ie =>
              if skip = some ie.1 then acc
              else
                let v := replacement_value ie.2 gen
                if v < acc.2 then (some ie.1, v) else acc)
              (some x.1, replacement_value x.2 gen) := by
          simp [List.foldl_cons, if_neg hskip, if_pos hlt]
        obtain ⟨h1, h2, h3⟩ := ih (some x.1, replacement_value x.2 gen)
        refine ⟨?_, ?_, ?_⟩
        · rw [hstep]; exact le_trans h1 (le_of_lt hlt)
        · intro ie hie hne
          rcases List.mem_cons.mp hie with rfl | hmem
          · exact hstep ▸ h1
          · exact hstep ▸ h2 ie hmem hne
        · rcases h3 with h | ⟨ie, hmem, hne, heq⟩
          · exact Or.inr ⟨x, List.mem_cons_self x xs, hskip, hstep.trans h⟩
          · exact Or.inr ⟨ie, List.mem_cons_of_mem x hmem, hne, hstep ▸ heq⟩
      · have hstep : (x :: xs).foldl (fun acc ie =>
            if skip = some ie.1 then acc
            else
              let v := replacement_value ie.2 gen
              if v < acc.2 then (some ie.1, v) else acc) acc =
            xs.foldl (fun acc ie =>
              if skip = some ie.1 then acc
              else
                let v := replacement_value ie.2 gen
                if v < acc.2 then (some ie.1, v) else acc) acc := by
          simp [List.foldl_cons, if_neg hskip, if_neg hlt]
        obtain ⟨h1, h2, h3⟩ := ih acc
        refine ⟨hstep ▸ h1, ?_, ?_⟩
        · intro ie hie hne
          rcases List.mem_cons.mp hie with rfl | hmem
          · rw [hstep]; exact le_trans h1 (not_lt.mp hlt)
          · exact hstep ▸ h2 ie hmem hne
        · rcases h3 with h | ⟨ie, hmem, hne, heq⟩
          · exact Or.inl (hstep ▸ h)
          · exact Or.inr ⟨ie, List.mem_cons_of_mem x hmem, hne, hstep ▸ heq⟩

/-- Replacement values are bounded above by `depth*4 + 16` (below the
`1000000` scan seed for int16 depths) and, for generations below 256, an
entry of non-negative depth scores at least `-510`, strictly above the
`-1000` of an empty slot. -/
theorem replacement_value_bounds (e : TTEntry) (gen : Nat)
    (hd : e.depth ≤ 32767) (hg : gen < 256) (heg : e.generation < 256) :
    replacement_value e gen < 1000000 ∧
      (e.key ≠ 0 → 0 ≤ e.depth → -510 ≤ replacement_value e gen) := by
  unfold replacement_value
  by_cases hk : e.key = 0
  · simp [hk]
  · simp only [hk, if_neg, if_false]
    constructor
    · split_ifs <;> omega
    · intro _ hd0; split_ifs <;> omega

/-- What `ttWorstIdx` returns: an index of the cluster, distinct from the
skipped one, whose replacement value is minimal among the non-skipped
entries — provided some non-skipped entry has replacement value below the
scan seed. -/
theorem ttWorstIdx_spec (entries : List TTEntry) (gen : Nat) (skip : Option Nat)
    (hlow : ∃ i < entries.length, skip ≠ some i ∧
      replacement_value (entries.getD i default) gen < 1000000) :
    ∃ r < entries.length, ttWorstIdx entries gen skip = some r ∧ skip ≠ some r ∧
      ∀ i < entries.length, skip ≠ some i →
        replacement_value (entries.getD r default) gen ≤
          replacement_value (entries.getD i default) gen := by
  obtain ⟨h1, h2, h3⟩ :=
    ttWorst_fold_spec gen skip entries.enum ((none : Option Nat), (1000000 : Int))
  have hmemD : ∀ i < entries.length, (i, entries.getD i default) ∈ entries.enum := by
    intro i hi
    have : entries[i]? = some (entries.getD i default) := by
      rw [List.getD_eq_getElem?_getD]
      cases h : entries[i]? with
      | none => exact absurd (List.getElem?_eq_none_iff.mp h) (by omega)
      | some a => simp
    exact List.mk_mem_enum_iff_getElem?.mpr this
  rcases h3 with hsame | ⟨ie, hmem, hne, heq⟩
  · obtain ⟨i, hi, hskip, hval⟩ := hlow
    have := h2 (i, entries.getD i default) (hmemD i hi) hskip
    rw [hsame] at this
    dsimp only at this
    omega
  · have hget := List.mk_mem_enum_iff_getElem?.mp hmem
    have hlt : ie.1 < entries.length := by
      by_contra hge
      rw [List.getElem?_eq_none (by omega)] at hget
      exact Option.noConfusion hget
    have hgetD : entries.getD ie.1 default = ie.2 := by
      rw [List.getD_eq_getElem?_getD, hget]; rfl
    refine ⟨ie.1, hlt, ?_, hne, ?_⟩
    · unfold ttWorstIdx
      rw [heq]
    · intro i hi hskip
      have := h2 (i, entries.getD i default) (hmemD i hi) hskip
      rw [heq] at this
      dsimp only at this
      rw [hgetD]
      exact this

/-- C3, counterexample. The claim says a current-generation exact entry
deeper than the incoming depth by more than 3 is NEVER evicted by a
non-exact incoming entry. Storing a non-exact depth-0 entry into the
`ttC3` cluster: the first worst entry (index 0, a protected exact entry)
is spared, and the "next-worst" chosen instead is index 1 — itself a
current-generation exact entry of depth 10 > 0 + 3 — which IS evicted
(`tt.c:149-174` only re-checks protection for the first choice). -/
theorem C3_counterexample :
    e1C3.flag = TT_FLAG_EXACT ∧ e1C3.generation = ttC3.generation ∧
      e1C3.depth > 0 + 3 ∧ TT_FLAG_LOWER ≠ TT_FLAG_EXACT ∧
      (ttC3.clusters.getD 0 []).getD 1 default = e1C3 ∧
      ((tt_store_with_move ttC3 99 0 7 0 TT_FLAG_LOWER).clusters.getD 0
          []).getD 1 default ≠ e1C3 ∧
      (((tt_store_with_move ttC3 99 0 7 0 TT_FLAG_LOWER).clusters.getD 0
          []).getD 1 default).key = 99 := by
  refine ⟨by decide, by decide, by decide, by decide, by decide, by decide,
    by decide⟩

/-- C3, amended. `tt_store_with_move(key, score, move, depth, flag)` selects
the cluster by `key & (num_clusters - 1)` and changes no other cluster. If
an entry with the same key exists (the first such), it is updated exactly
when the new depth ≥ the stored depth or the new flag is exact and the
stored flag is not, and an incoming best move of `NONE` preserves the
stored one. Otherwise an entry minimising the replacement value
`depth*4 + (exact ? 16 : 0) - age*2` (an empty slot counting as `-1000`,
which is below every real entry, hence "-∞") is overwritten — except that
when that minimiser is a current-generation exact entry deeper than the
incoming by more than 3 and the incoming entry is non-exact, the minimiser
among the remaining three entries is overwritten instead, even if it is
itself such a protected entry; moreover with an empty slot present the
overwritten slot is always an empty one. Hypotheses: a non-empty cluster
array, 4-entry clusters, int16-ranged non-negative stored depths, uint8
generations and zeroed empty slots — the invariants `tt_create` and the
search's stores maintain. -/
theorem C3_tt_store_characterization (tt : TranspositionTable) (key : Nat)
    (score : Int) (best_move : Nat) (depth : Int) (flag : Nat)
    (hne : tt.clusters ≠ [])
    (hwf : ∀ c ∈ tt.clusters, c.length = 4 ∧ ∀ e ∈ c,
      0 ≤ e.depth ∧ e.depth ≤ 32767 ∧ e.generation < 256 ∧
        (e.key = 0 → e.flag = TT_FLAG_NONE))
    (hg : tt.generation < 256) :
    (tt_store_with_move tt key score best_move depth flag).clusters.length =
        tt.clusters.length ∧
      (∀ j < tt.clusters.length, j ≠ key &&& (tt.clusters.length - 1) →
        (tt_store_with_move tt key score best_move depth flag).clusters.getD j [] =
          tt.clusters.getD j []) ∧
      (tt_store_with_move tt key score best_move depth flag).clusters.getD
          (key &&& (tt.clusters.length - 1)) [] =
        tt_store_cluster (tt.clusters.getD (key &&& (tt.clusters.length - 1)) [])
          tt.generation key score best_move depth flag ∧
      (∀ i, (tt.clusters.getD (key &&& (tt.clusters.length - 1)) []).findIdx?
            (fun e => e.key = key) = some i →
        (let cl := tt.clusters.getD (key &&& (tt.clusters.length - 1)) []
         let e := cl.getD i default
         ((depth ≥ e.depth ∨ (flag = TT_FLAG_EXACT ∧ e.flag ≠ TT_FLAG_EXACT)) →
           tt_store_cluster cl tt.generation key score best_move depth flag =
             cl.set i (ttUpdatedEntry e key score best_move depth flag
               tt.generation)) ∧
         (¬(depth ≥ e.depth ∨ (flag = TT_FLAG_EXACT ∧ e.flag ≠ TT_FLAG_EXACT)) →
           tt_store_cluster cl tt.generation key score best_move depth flag = cl) ∧
         (best_move = MOVE_NONE →
           (ttUpdatedEntry e key score best_move depth flag
             tt.generation).best_move = e.best_move))) ∧
      ((tt.clusters.getD (key &&& (tt.clusters.length - 1)) []).findIdx?
          (fun e => e.key = key) = none →
        (let cl := tt.clusters.getD (key &&& (tt.clusters.length - 1)) []
         let rv := fun j => replacement_value (cl.getD j default) tt.generation
         let prot := fun j => (cl.getD j default).flag = TT_FLAG_EXACT ∧
           flag ≠ TT_FLAG_EXACT ∧ (cl.getD j default).depth > depth + 3 ∧
           (cl.getD j default).generation = tt.generation
         ∃ r < cl.length,
           tt_store_cluster cl tt.generation key score best_move depth flag =
             cl.set r (TTEntry.mk key score best_move depth flag tt.generation) ∧
           ((¬prot r ∧ ∀ j < cl.length, rv r ≤ rv j) ∨
             (∃ w < cl.length, (∀ j < cl.length, rv w ≤ rv j) ∧ prot w ∧
               r ≠ w ∧ ∀ j < cl.length, j ≠ w → rv r ≤ rv j)) ∧
           ((∃ i < cl.length, (cl.getD i default).key = 0) →
             (cl.getD r default).key = 0))) := by
  have hidx : key &&& (tt.clusters.length - 1) < tt.clusters.length := by
    have h1 : key &&& (tt.clusters.length - 1) ≤ tt.clusters.length - 1 :=
      Nat.and_le_right
    have h2 : 0 < tt.clusters.length := List.length_pos.mpr hne
    omega
  have hclmem : tt.clusters.getD (key &&& (tt.clusters.length - 1)) [] ∈
      tt.clusters := by
    rw [List.getD_eq_getElem?_getD, List.getElem?_eq_getElem hidx]
    exact List.getElem_mem hidx
  obtain ⟨hcl4, hclent⟩ := hwf _ hclmem
  set cl := tt.clusters.getD (key &&& (tt.clusters.length - 1)) [] with hcldef
  have hmemD : ∀ i < cl.length, cl.getD i default ∈ cl := by
    intro i hi
    rw [List.getD_eq_getElem?_getD, List.getElem?_eq_getElem hi]
    exact List.getElem_mem hi
  have hrv_lt : ∀ i < cl.length,
      replacement_value (cl.getD i default) tt.generation < 1000000 := by
    intro i hi
    obtain ⟨_, hd, hgen, _⟩ := hclent _ (hmemD i hi)
    exact (replacement_value_bounds _ _ hd hg hgen).1
  refine ⟨?_, ?_, ?_, ?_, ?_⟩
  · unfold tt_store_with_move
    rw [if_neg (by simpa [List.isEmpty_iff] using hne)]
    exact List.length_set _ _ _
  · intro j hj hjne
    unfold tt_store_with_move
    rw [if_neg (by simpa [List.isEmpty_iff] using hne)]
    simp only
    rw [List.getD_eq_getElem?_getD, List.getElem?_set_ne (by omega),
      ← List.getD_eq_getElem?_getD]
  · unfold tt_store_with_move
    rw [if_neg (by simpa [List.isEmpty_iff] using hne)]
    simp only
    rw [List.getD_eq_getElem?_getD, List.getElem?_set_self' ,
      List.getElem?_eq_getElem hidx]
    rfl
  · intro i hfi
    refine ⟨?_, ?_, ?_⟩
    · intro hcond
      unfold tt_store_cluster
      rw [hfi]
      simp only [ge_iff_le]
      rw [if_pos (by tauto)]
    · intro hcond
      unfold tt_store_cluster
      rw [hfi]
      simp only [ge_iff_le]
      rw [if_neg (by tauto)]
    · intro hbm
      unfold ttUpdatedEntry
      dsimp only
      by_cases h : (cl.getD i default).best_move = MOVE_NONE
      · rw [if_neg (fun hc => hc.2 h), hbm, h]
      · rw [if_pos ⟨hbm, h⟩]
  · intro hfi
    simp only
    have hlow0 : ∃ i < cl.length, (none : Option Nat) ≠ some i ∧
        replacement_value (cl.getD i default) tt.generation < 1000000 := by
      exact ⟨0, by omega, by simp, hrv_lt 0 (by omega)⟩
    obtain ⟨r0, hr0lt, hr0eq, _, hr0min⟩ :=
      ttWorstIdx_spec cl tt.generation none hlow0
    by_cases hprot : (cl.getD r0 default).flag = TT_FLAG_EXACT ∧
        flag ≠ TT_FLAG_EXACT ∧ (cl.getD r0 default).depth > depth + 3 ∧
        (cl.getD r0 default).generation = tt.generation
    · -- exception: second scan skipping r0
      have hlow1 : ∃ i < cl.length, (some r0 : Option Nat) ≠ some i ∧
          replacement_value (cl.getD i default) tt.generation < 1000000 := by
        refine ⟨if r0 = 0 then 1 else 0, by split_ifs <;> omega, ?_, ?_⟩
        · split_ifs with h
          · simp [h]
          · simpa using h
        · split_ifs <;> exact hrv_lt _ (by omega)
      obtain ⟨r1, hr1lt, hr1eq, hr1ne, hr1min⟩ :=
        ttWorstIdx_spec cl tt.generation (some r0) hlow1
      have hr1ne' : r1 ≠ r0 := fun h => hr1ne (by rw [h])
      refine ⟨r1, hr1lt, ?_, ?_, ?_⟩
      · unfold tt_store_cluster
        rw [hfi, hr0eq]
        dsimp only
        rw [if_pos hprot, hr1eq]
      · exact Or.inr ⟨r0, hr0lt, fun j hj => hr0min j hj (by simp), hprot,
          hr1ne', fun j hj hjne => hr1min j hj (by simp [Ne.symm hjne])⟩
      · intro ⟨i, hi, hkey0⟩
        by_contra hr1key
        -- r0 is the global minimum; an empty slot has value -1000, every
        -- non-empty one at least -510, so r0 is empty, contradicting
        -- that r0 is protected (empty slots have flag 0, not EXACT).
        have hval0 : replacement_value (cl.getD i default) tt.generation =
            -1000 := by
          unfold replacement_value; rw [if_pos hkey0]
        have hmin0 := hr0min i hi (by simp)
        rw [hval0] at hmin0
        obtain ⟨hd0, hd1, hgen1, hkf⟩ := hclent _ (hmemD r0 hr0lt)
        have hr0key : (cl.getD r0 default).key ≠ 0 := by
          intro h
          have := hkf h
          rw [this] at hprot
          exact absurd hprot.1 (by decide)
        have := (replacement_value_bounds (cl.getD r0 default) tt.generation
          hd1 hg hgen1).2 hr0key hd0
        omega
    · refine ⟨r0, hr0lt, ?_, ?_, ?_⟩
      · unfold tt_store_cluster
        rw [hfi, hr0eq]
        dsimp only
        rw [if_neg hprot]
      · exact Or.inl ⟨hprot, fun j hj => hr0min j hj (by simp)⟩
      · intro ⟨i, hi, hkey0⟩
        by_contra hr0key
        have hval0 : replacement_value (cl.getD i default) tt.generation =
            -1000 := by
          unfold replacement_value; rw [if_pos hkey0]
        have hmin0 := hr0min i hi (by simp)
        rw [hval0] at hmin0
        obtain ⟨hd0, hd1, hgen1, _⟩ := hclent _ (hmemD r0 hr0lt)
        have := (replacement_value_bounds (cl.getD r0 default) tt.generation
          hd1 hg hgen1).2 hr0key hd0
        omega

/-- C3 witness: the amended characterisation applied to the concrete table
`ttC3` with an incoming non-exact depth-0 entry. -/
theorem C3_tt_store_characterization_witness :
    (tt_store_with_move ttC3 99 0 7 0 TT_FLAG_LOWER).clusters.length =
      ttC3.clusters.length :=
  (C3_tt_store_characterization ttC3 99 0 7 0 TT_FLAG_LOWER (by decide)
    (by decide) (by decide)).1

-- C9: quiet-move scoring and ordering.

/-- Membership in an `insertDescending` result. -/
theorem mem_insertDescending (x y : Nat × Int) (l : List (Nat × Int)) :
    y ∈ insertDescending x l ↔ y = x ∨ y ∈ l := by
  induction l with
  | nil => simp [insertDescending]
  | cons z zs ih =>
    unfold insertDescending
    split_ifs with h
    · simp only [List.mem_cons]
    · simp only [List.mem_cons, ih]
      tauto

/-- `insertDescending` preserves descending sortedness by score. -/
theorem sorted_insertDescending (x : Nat × Int) (l : List (Nat × Int))
    (hl : l.Sorted (fun a b => b.2 ≤ a.2)) :
    (insertDescending x l).Sorted (fun a b => b.2 ≤ a.2) := by
  induction l with
  | nil => simp [insertDescending]
  | cons z zs ih =>
    rw [List.sorted_cons] at hl
    unfold insertDescending
    split_ifs with h
    · rw [List.sorted_cons]
      refine ⟨?_, by rw [List.sorted_cons]; exact hl⟩
      intro y hy
      rcases List.mem_cons.mp hy with rfl | hmem
      · exact le_of_lt h
      · exact le_trans (hl.1 y hmem) (le_of_lt h)
    · rw [List.sorted_cons]
      refine ⟨?_, ih hl.2⟩
      intro y hy
      rcases (mem_insertDescending x y zs).mp hy with rfl | hmem
      · exact not_lt.mp h
      · exact hl.1 y hmem

/-- The insertion sort `sort_moves` produces a descending-by-score list. -/
theorem sorted_sort_moves (l : List (Nat × Int)) :
    (sort_moves l).Sorted (fun a b => b.2 ≤ a.2) := by
  suffices h : ∀ (l acc : List (Nat × Int)),
      acc.Sorted (fun a b => b.2 ≤ a.2) →
      (l.foldl (fun acc x => insertDescending x acc) acc).Sorted
        (fun a b => b.2 ≤ a.2) by
    exact h l [] (by simp)
  intro l
  induction l with
  | nil => intro acc h; exact h
  | cons x xs ih =>
    intro acc h
    exact ih _ (sorted_insertDescending x acc h)

/-- C9, counterexample. The claim scores quiet moves by
`history + countermove-history/3 + follow-up-history/3 + defensive bonus`,
but the picker's quiet scorer is the bare history entry: on the quiet move
Rh1-h2 of `posC4` with an all-zero history table the code scores `0`, while
the claimed formula at the same history with a countermove-history of 3
gives `1`. The picker cannot compute the claimed formula at all: it
receives no countermove-history, follow-up-history or previous-move data
(`movepicker_init`, `movepicker.h:28-55`). -/
theorem C9_counterexample :
    (mvRh2, score_quiet posC4 ctxC9 mvRh2) ∈ movepickerQuiets posC4 ctxC9 ∧
      score_quiet posC4 ctxC9 mvRh2 = 0 ∧
      spec_quiet_score 0 3 0 0 = 1 ∧ (0 : Int) ≠ 1 := by
  refine ⟨by decide, by decide, by decide, by decide⟩

/-- C9, amended. In the quiet-generation stage the picker scores every
listed quiet move with `score_quiet`; for the moves that reach this stage
(they are never the killers or the countermove, which are filtered out)
and a non-null history pointer, that score is exactly the history-table
entry `history[piece_at(from) * 64 + to]` (with `position_piece_at`'s
colour-encoded piece index), and the stage emits quiet moves in descending
order of this score. The countermove-history / follow-up-history /
defensive-bonus formula lives in `score_move_for_ordering`
(`search.c:860-918`), not in the picker. -/
theorem C9_quiet_scores_history_sorted (pos : Position) (ctx : MovePickerCtx) :
    (∀ q ∈ movepickerQuiets pos ctx, q.2 = score_quiet pos ctx q.1) ∧
      (∀ move : Nat, move ≠ ctx.killer1 → move ≠ ctx.killer2 →
        move ≠ ctx.countermove → ctx.history_null = false →
        score_quiet pos ctx move =
          (if position_piece_at pos (MOVE_FROM move) ≠ -1 then
            ctx.history
              ((position_piece_at pos (MOVE_FROM move)).toNat * 64 + MOVE_TO move)
          else 0)) ∧
      (sort_moves (movepickerQuiets pos ctx)).Sorted (fun a b => b.2 ≤ a.2) := by
  refine ⟨?_, ?_, sorted_sort_moves _⟩
  · intro q hq
    obtain ⟨m, _, rfl⟩ := List.mem_map.mp hq
    rfl
  · intro move h1 h2 h3 h4
    unfold score_quiet
    rw [if_neg h1, if_neg h2, if_neg h3, if_pos (by simp [h4])]

/-- C9 witness: the amended scoring fact at the concrete quiet move
Rh1-h2 of `posC4`. -/
theorem C9_quiet_scores_history_sorted_witness :
    score_quiet posC4 ctxC9 mvRh2 =
      (if position_piece_at posC4 (MOVE_FROM mvRh2) ≠ -1 then
        ctxC9.history
          ((position_piece_at posC4 (MOVE_FROM mvRh2)).toNat * 64 + MOVE_TO mvRh2)
      else 0) :=
  (C9_quiet_scores_history_sorted posC4 ctxC9).2.1 mvRh2 (by decide) (by decide)
    (by decide) (by decide)

-- C6: singular extension.

/-- C6: the singular test never actually excludes the TT move. The first
conjunct: the skip decision of the `alpha_beta` move loop is the same
whatever `state->excluded_move` holds — no `continue` condition consults
it (`search.c:1216-1335`). The rest evaluates the failing scenario: at the
depth-8 node `singCtxC6` the singular block runs its reduced test at depth
`(8-1)/2 = 3` with `state->excluded_move` set to the TT move `mvRh2`
(`search.c:1172`), yet inside that test search the move loop does NOT skip
`mvRh2` (it is searched normally), so the "with the TT move excluded"
part of the claim is false on the code. -/
theorem C6_excluded_move_never_consulted :
    (∀ (ctx : MoveLoopCtx) (pos : Position) (move e1 e2 : Nat),
      move_loop_skips { ctx with excluded_move := e1 } pos move =
        move_loop_skips { ctx with excluded_move := e2 } pos move) ∧
      (singular_block singCtxC6 (fun _ _ _ => 0)).attempted = true ∧
      (singular_block singCtxC6 (fun _ _ _ => 0)).test_depth = 3 ∧
      (singular_block singCtxC6 (fun _ _ _ => 0)).excluded_during_test = mvRh2 ∧
      loopCtxC6.excluded_move = mvRh2 ∧
      move_loop_skips loopCtxC6 posC4 mvRh2 = false := by
  refine ⟨fun ctx pos move e1 e2 => rfl, by decide, by decide, by decide,
    by decide, by decide⟩

end Engine
